import Mathlib

/-!
# Pogo Stickman: the simulation core of `src/app/page.js`

A shallow embedding of the fixed-timestep simulation of `src/app/page.js`
(the level constants, `clamp`, `resetCharacter`, `updatePhysics`,
`resolveCollisions`, `resolveHazards`, `resolveCeiling`, `triggerFail`,
`stepSimulation`, the camera update of `drawScene`, `loop`, and the two
intersection helpers), followed by theorems about it.

Conventions of the embedding.

* JavaScript numbers are rationals `ℚ` (every finite double is a rational
  number); `NaN` and the infinities are outside the model. The physics of one
  tick is modelled in exact arithmetic.
* The accumulator of the stepper is different: how many times `updatePhysics`
  runs is decided by comparing rounded sums and differences with the double
  nearest to `1 / 60`. The stepper therefore takes the rounding of its
  arithmetic as a parameter: `roundDouble` (IEEE 754 binary64, round to
  nearest, ties to even) is the arithmetic of the program, `noRounding`
  is exact arithmetic.
* The mutable objects `stateRef.current` and `keysRef.current` and the
  closure variable `accumulator` become explicit arguments and results.
* The React presentation state (`statusText`, `statusClass`, `hudStats`,
  `hudUpdateRef`) is written by the simulation but never read by it; it is
  left out, and so are the messages passed to `triggerFail`.
-/

namespace Pogo

/-! ## Data model -/

/-- A pair of coordinates, `{ x, y }`; `y` grows downward. -/
structure Vec2 where
  x : ℚ
  y : ℚ
deriving DecidableEq, Repr

/-- An entry of `LEVEL.platforms`. -/
structure Platform where
  x : ℚ
  y : ℚ
  width : ℚ
  height : ℚ
  bounce : ℚ
deriving DecidableEq, Repr

/-- An entry of `LEVEL.hazards`, and the shape of `LEVEL.finish`. -/
structure Rect where
  x : ℚ
  y : ℚ
  width : ℚ
  height : ℚ
deriving DecidableEq, Repr

/-- The shape of the constant `LEVEL`. -/
structure Level where
  width : ℚ
  ceiling : ℚ
  platforms : List Platform
  hazards : List Rect
  finish : Rect
deriving DecidableEq, Repr

/-- The object built by `resetCharacter` and mutated by `updatePhysics`. -/
structure Character where
  position : Vec2
  velocity : Vec2
  rotation : ℚ
  tilt : ℚ
  springCompression : ℚ
  onGround : Bool
  airborneTimer : ℚ
deriving DecidableEq, Repr

/-- The three values taken by `status`: "playing", "victory", "fail". -/
inductive Status where
  | playing
  | victory
  | fail
deriving DecidableEq, Repr

/-- The object held in `stateRef.current`. -/
structure SimState where
  character : Character
  cameraX : ℚ
  status : Status
  elapsed : ℚ
deriving DecidableEq, Repr

/-- The object held in `keysRef.current`. -/
structure Keys where
  ArrowLeft : Bool
  ArrowRight : Bool
  ArrowUp : Bool
  Space : Bool
deriving DecidableEq, Repr

/-! ## Constants (lines 5-29) -/

/-- The shipped level, lines 5-20. -/
def LEVEL : Level where
  width := 2400
  ceiling := 40
  platforms :=
    [ { x := 0, y := 470, width := 620, height := 250, bounce := 28 / 100 },
      { x := 700, y := 450, width := 280, height := 220, bounce := 32 / 100 },
      { x := 1050, y := 420, width := 260, height := 220, bounce := 35 / 100 },
      { x := 1380, y := 450, width := 260, height := 220, bounce := 28 / 100 },
      { x := 1700, y := 470, width := 400, height := 230, bounce := 3 / 10 } ]
  hazards :=
    [ { x := 620, y := 470, width := 80, height := 90 },
      { x := 1320, y := 450, width := 70, height := 80 } ]
  finish := { x := 2140, y := 360, width := 60, height := 160 }

def POGO_LENGTH : ℚ := 110
def BODY_RADIUS : ℚ := 28
def HEAD_RADIUS : ℚ := 18
def CAMERA_LERP : ℚ := 12 / 100
def GRAVITY : ℚ := 2200
def AIR_DRAG : ℚ := 88 / 100
def MAX_VELOCITY_X : ℚ := 420
def STEP_TIME : ℚ := 1 / 60

/-! ## Helpers -/

/-- Source: `clamp(value, min, max) = Math.max(min, Math.min(max, value))`. -/
def clamp (value lo hi : ℚ) : ℚ := max lo (min hi value)

/-- Source: `getFootPosition`, a copy of the character's position. -/
def getFootPosition (character : Character) : Vec2 :=
  { x := character.position.x, y := character.position.y }

/-- Source: `resetCharacter`, lines 39-49. -/
def resetCharacter : Character where
  position := { x := 140, y := 430 }
  velocity := { x := 0, y := 0 }
  rotation := 0
  tilt := 0
  springCompression := 0
  onGround := false
  airborneTimer := 0

/-- Source: `rectCircleIntersect`, lines 506-512. -/
def rectCircleIntersect (rect : Rect) (cx cy radius : ℚ) : Bool :=
  let closestX := clamp cx rect.x (rect.x + rect.width)
  let closestY := clamp cy (rect.y - rect.height) rect.y
  let dx := cx - closestX
  let dy := cy - closestY
  decide (dx * dx + dy * dy < radius * radius)

/-- Source: `rectPointIntersect`, lines 514-516. -/
def rectPointIntersect (rect : Rect) (px py : ℚ) : Bool :=
  decide (px ≥ rect.x) && decide (px ≤ rect.x + rect.width) &&
    decide (py ≥ rect.y - rect.height) && decide (py ≤ rect.y)

/-! ## Resolvers (lines 208-277) -/

/-- The body of the `for` loop of `resolveCollisions` (lines 211-235) for one
platform: the foot test, then the pole-tip test. `foot` is the copy of the
position taken once, before the loop. -/
def collidePlatform (foot : Vec2) (ch : Character) (platform : Platform) : Character :=
  let top := platform.y
  let left := platform.x
  let right := platform.x + platform.width
  let ch1 : Character :=
    if foot.x ≥ left ∧ foot.x ≤ right then
      let penetration := foot.y - top
      if penetration ≥ 0 ∧ penetration ≤ platform.height + 60 then
        if ch.velocity.y ≥ 0 then
          let vy := ch.velocity.y * (-platform.bounce)
          { ch with
            position := { x := ch.position.x, y := ch.position.y - penetration }
            velocity := { x := ch.velocity.x, y := if |vy| < 60 then 0 else vy }
            onGround := true }
        else ch
      else ch
    else ch
  let bodyBottom := ch1.position.y - POGO_LENGTH * (1 / 2)
  if bodyBottom ≤ top ∧ bodyBottom ≥ top - 40 then
    let bodyX := ch1.position.x
    if bodyX + BODY_RADIUS > left ∧ bodyX - BODY_RADIUS < right ∧ ch1.velocity.y < 0 then
      { ch1 with
        position := { x := ch1.position.x, y := top + POGO_LENGTH * (1 / 2) }
        velocity := { x := ch1.velocity.x, y := max 0 ch1.velocity.y } }
    else ch1
  else ch1

/-- Source: `resolveCollisions`, lines 208-237: the loop over
`LEVEL.platforms`, in order. -/
def resolveCollisions (ch : Character) : Character :=
  LEVEL.platforms.foldl (collidePlatform (getFootPosition ch)) ch

/-- Source: `triggerFail`, lines 271-277, on the status alone. -/
def triggerFail (status : Status) : Status :=
  if status ≠ Status.playing then status else Status.fail

/-- The three tests of the loop body of `resolveHazards` (lines 243-255) for
one hazard: body circle, head circle, foot point. -/
def hazardContact (ch : Character) (hazard : Rect) : Bool :=
  let bodyCenterY := ch.position.y - POGO_LENGTH * (7 / 10)
  let headCenterY := bodyCenterY - BODY_RADIUS - HEAD_RADIUS + 6
  let foot := getFootPosition ch
  rectCircleIntersect hazard ch.position.x bodyCenterY BODY_RADIUS ||
    rectCircleIntersect hazard ch.position.x headCenterY HEAD_RADIUS ||
    rectPointIntersect hazard foot.x (foot.y + 4)

/-- Source: `resolveHazards`, lines 239-261. The loop returns at the first
hazard that is hit, after `triggerFail`; when no hazard is hit the depth test
`position.y > 760` follows. The character is not changed; the result is the
status. -/
def resolveHazards (status : Status) (ch : Character) : Status :=
  if LEVEL.hazards.any (hazardContact ch) then triggerFail status
  else if ch.position.y > 760 then triggerFail status
  else status

/-- Source: `resolveCeiling`, lines 263-269. -/
def resolveCeiling (ch : Character) : Character :=
  let headY := ch.position.y - POGO_LENGTH * (9 / 10) - BODY_RADIUS - HEAD_RADIUS
  if headY < LEVEL.ceiling then
    { ch with
      position := { x := ch.position.x, y := ch.position.y + (LEVEL.ceiling - headY) }
      velocity := { x := ch.velocity.x, y := max 0 (ch.velocity.y * (-(2 / 10))) } }
  else ch

/-! ## The per-tick update (lines 123-206) -/

/-- Lines 133-154 of `updatePhysics`: the grounded flag is cleared, the
horizontal input is applied, then the idle-friction test, the velocity clamp,
gravity, the position integration and the horizontal position clamp. -/
def integrate (keys : Keys) (step : ℚ) (ch : Character) : Character :=
  let onGround := false
  let moveAccel : ℚ := 1500
  let vx1 := if keys.ArrowLeft then ch.velocity.x - moveAccel * step else ch.velocity.x
  let vx2 := if keys.ArrowRight then vx1 + moveAccel * step else vx1
  let vx3 := if (!keys.ArrowLeft && !keys.ArrowRight && onGround) then vx2 * (8 / 10) else vx2
  let vx := clamp vx3 (-MAX_VELOCITY_X) MAX_VELOCITY_X
  let vy := ch.velocity.y + GRAVITY * step
  let px := ch.position.x + vx * step
  let py := ch.position.y + vy * step
  { ch with
    position := { x := clamp px 0 (LEVEL.width - 40), y := py }
    velocity := { x := vx, y := vy }
    onGround := onGround }

/-- Lines 160-187 of `updatePhysics`: damping, spring compression and
airborne timer, the jump, then tilt and rotation. -/
def settle (keys : Keys) (step : ℚ) (ch : Character) : Character :=
  let vx1 := if ch.onGround then ch.velocity.x * (82 / 100) else ch.velocity.x * AIR_DRAG
  let spring1 :=
    if ch.onGround then
      clamp (ch.springCompression * (92 / 100) + min 1 (|ch.velocity.y| / 900) * (45 / 100)) 0 1
    else clamp (ch.springCompression * (85 / 100)) 0 1
  let timer1 := if ch.onGround then 0 else ch.airborneTimer + step
  let wantsJump := keys.ArrowUp || keys.Space
  let jump := wantsJump && ch.onGround
  let vy2 := if jump then -1050 else ch.velocity.y
  let vx2 := if jump then vx1 + clamp vx1 (-1) 1 * 60 else vx1
  let onGround2 := if jump then false else ch.onGround
  let spring2 := if jump then 1 else spring1
  let tilt2 := clamp (ch.tilt * (85 / 100) + (vx2 / MAX_VELOCITY_X) * (18 / 100)) (-(1 / 2)) (1 / 2)
  let rotation2 := if !onGround2 then ch.rotation + (vx2 / 320) * step else ch.rotation * (6 / 10)
  { position := ch.position
    velocity := { x := vx2, y := vy2 }
    rotation := rotation2
    tilt := tilt2
    springCompression := spring2
    onGround := onGround2
    airborneTimer := timer1 }

/-- Source: `updatePhysics(step)`, lines 123-206, as a function of the held
keys and the simulation state. -/
def updatePhysics (keys : Keys) (step : ℚ) (currentState : SimState) : SimState :=
  if currentState.status ≠ Status.playing then currentState
  else
    let elapsed := currentState.elapsed + step
    let ch1 := resolveCollisions (integrate keys step currentState.character)
    let status1 := resolveHazards currentState.status ch1
    let ch2 := settle keys step (resolveCeiling ch1)
    let finishLine := LEVEL.finish
    let status2 :=
      if ch2.position.x ≥ finishLine.x + finishLine.width / 2 then Status.victory else status1
    { character := ch2, cameraX := currentState.cameraX, status := status2, elapsed := elapsed }

/-! ## Double-precision rounding -/

/-- The integer nearest to `y`; a tie goes to the even neighbour. -/
def roundHalfEven (y : ℚ) : ℤ :=
  if y - ⌊y⌋ < 1 / 2 then ⌊y⌋
  else if 1 / 2 < y - ⌊y⌋ then ⌊y⌋ + 1
  else if ⌊y⌋ % 2 = 0 then ⌊y⌋ else ⌊y⌋ + 1

/-- The exponent of the spacing of the doubles around `x`: 52 below the
exponent of the binade of `x` (53 significant bits), and never below -1074,
the spacing of the subnormal numbers. -/
def ulpExp (x : ℚ) : ℤ := max (Int.log 2 |x| - 52) (-1074)

/-- The double nearest to `x` (IEEE 754 binary64, round to nearest, ties to
even): the result of a JavaScript `+`, `-` or `/` whose exact value is `x`.
Overflow to infinity, beyond `2 ^ 1024`, is not modelled. -/
def roundDouble (x : ℚ) : ℚ := roundHalfEven (x / 2 ^ ulpExp x) * 2 ^ ulpExp x

/-- Exact arithmetic: no rounding. -/
def noRounding (x : ℚ) : ℚ := x

/-! ## The stepper (lines 279-285) and the frame loop (lines 287-327) -/

/-- The simulation state together with the closure variable `accumulator`.
`updateCalls` is a ghost counter, absent from the source: it counts the calls
of `updatePhysics` made so far. -/
structure Stepper where
  state : SimState
  accumulator : ℚ
  updateCalls : ℕ
deriving DecidableEq, Repr

/-- The `while (accumulator >= STEP_TIME)` loop of `stepSimulation`, lines
281-284. `rd` rounds the results of the arithmetic: the constant
`STEP_TIME = 1 / 60` is `rd STEP_TIME` and `accumulator -= STEP_TIME` leaves
`rd (accumulator - rd STEP_TIME)`. The loop of the source has no bound of its
own: `fuel` bounds the number of iterations, and the result is `none` when the
fuel runs out while the loop condition still holds. -/
def stepLoop (rd : ℚ → ℚ) (keys : Keys) : ℕ → Stepper → Option Stepper
  | 0, st => if st.accumulator ≥ rd STEP_TIME then none else some st
  | fuel + 1, st =>
    if st.accumulator ≥ rd STEP_TIME then
      stepLoop rd keys fuel
        { state := updatePhysics keys (rd STEP_TIME) st.state
          accumulator := rd (st.accumulator - rd STEP_TIME)
          updateCalls := st.updateCalls + 1 }
    else some st

/-- Source: `stepSimulation(delta)`, lines 279-285: `accumulator += delta`,
rounded by `rd`, then the loop. -/
def stepSimulation (rd : ℚ → ℚ) (keys : Keys) (fuel : ℕ) (delta : ℚ) (st : Stepper) :
    Option Stepper :=
  stepLoop rd keys fuel { st with accumulator := rd (st.accumulator + delta) }

/-- The camera update of `drawScene`, lines 295-299; the drawing itself is
outside the model. -/
def drawScene (canvasWidth : ℚ) (currentState : SimState) : SimState :=
  { currentState with
    cameraX :=
      clamp
        (currentState.cameraX +
          (currentState.character.position.x - currentState.cameraX - canvasWidth / 2) * CAMERA_LERP)
        0 (LEVEL.width - canvasWidth) }

/-- Source: `loop(timestamp)`, lines 318-327, for one animation frame; `delta`
is `(timestamp - lastTimestamp) / 1000`, and the constant `0.05` is
`rd (5 / 100)`. -/
def loop (rd : ℚ → ℚ) (keys : Keys) (canvasWidth : ℚ) (fuel : ℕ) (delta : ℚ) (st : Stepper) :
    Option Stepper :=
  let safeDelta := clamp delta 0 (rd (5 / 100))
  (stepSimulation rd keys fuel safeDelta st).map fun st1 =>
    { st1 with state := drawScene canvasWidth st1.state }

/-- Feeding a sequence of frame deltas to `stepSimulation`, one at a time,
under a fixed set of held keys. -/
def runDeltas (rd : ℚ → ℚ) (keys : Keys) (fuel : ℕ) : List ℚ → Stepper → Option Stepper
  | [], st => some st
  | delta :: rest, st => (stepSimulation rd keys fuel delta st).bind (runDeltas rd keys fuel rest)

/-- Source: `restart`, lines 104-121, on the simulation state and the keys. -/
def restart (_currentState : SimState) (_keys : Keys) : SimState × Keys :=
  ({ character := resetCharacter, cameraX := 0, status := Status.playing, elapsed := 0 },
   { ArrowLeft := false, ArrowRight := false, ArrowUp := false, Space := false })

/-! ## Geometry used to state the hazard properties -/

/-- The point `(px, py)` lies in the rectangle anchored at its base `rect.y`:
`[rect.x, rect.x + rect.width]` by `[rect.y - rect.height, rect.y]`. -/
def inRect (rect : Rect) (px py : ℚ) : Prop :=
  rect.x ≤ px ∧ px ≤ rect.x + rect.width ∧ rect.y - rect.height ≤ py ∧ py ≤ rect.y

/-- Some point of the rectangle is at distance strictly less than `r` from
the centre `(cx, cy)`. -/
def circleMeetsRect (rect : Rect) (cx cy r : ℚ) : Prop :=
  ∃ px py : ℚ, inRect rect px py ∧ (px - cx) ^ 2 + (py - cy) ^ 2 < r ^ 2

/-! ## The vertical motion above the first platform

Auxiliary definitions for Scenario A: what one tick of `updatePhysics` does to
`position.y`, `velocity.y` and `onGround` of a playing character at `x = 140`
with `velocity.x = 0` and no key held (that it does so is proved below, in
`updatePhysics_vertStep`). -/

/-- One tick on a triple `(y, vy, onGround)`: gravity and integration (lines
149-152); while the new `y` is in `[185, 470)` neither the ceiling nor the
first platform (top 470) is touched; when it is in `[470, 780]` (the catch band
`height + 60 = 310` of the first platform) and the character is not moving
upward, the foot test of lines 214-226 snaps `y` to 470 and reflects `vy` with
bounce 0.28, to 0 below 60. Outside these cases the result is `none`. -/
def vertStep (q : ℚ × ℚ × Bool) : Option (ℚ × ℚ × Bool) :=
  let vy1 := q.2.1 + GRAVITY * STEP_TIME
  let y1 := q.1 + vy1 * STEP_TIME
  if 185 ≤ y1 ∧ y1 < 470 then some (y1, vy1, false)
  else if 470 ≤ y1 ∧ y1 ≤ 780 ∧ 0 ≤ vy1 then
    some (470, (if |vy1 * -(28 / 100)| < 60 then 0 else vy1 * -(28 / 100)), true)
  else none

/-- The triple after `n` ticks. -/
def vertRun : ℕ → ℚ × ℚ × Bool → Option (ℚ × ℚ × Bool)
  | 0, q => some q
  | n + 1, q => (vertRun n q).bind vertStep

/-- The state is playing, at `x = 140` with `velocity.x = 0`, and its
`position.y`, `velocity.y` and `onGround` are the triple `q`. -/
def AboveFirst (q : ℚ × ℚ × Bool) (s : SimState) : Prop :=
  s.status = Status.playing ∧ s.character.position = { x := 140, y := q.1 } ∧
    s.character.velocity = { x := 0, y := q.2.1 } ∧ s.character.onGround = q.2.2

/-! ## Sample inputs -/

/-- No key held. -/
def noKeys : Keys :=
  { ArrowLeft := false, ArrowRight := false, ArrowUp := false, Space := false }

/-- The state at the start of a run: `resetCharacter`, status "playing". -/
def startState : SimState :=
  { character := resetCharacter, cameraX := 0, status := Status.playing, elapsed := 0 }

/-- A state after a failed run. -/
def failedState : SimState :=
  { character := resetCharacter, cameraX := 0, status := Status.fail, elapsed := 3 }

/-- Only ArrowRight held. -/
def rightKeys : Keys :=
  { ArrowLeft := false, ArrowRight := true, ArrowUp := false, Space := false }

/-- A playing character past the last platform, just left of the finish
centre and just above the abyss depth, moving right and falling. -/
def abyssNearFinish : SimState :=
  { character :=
      { position := { x := 2166, y := 755 }
        velocity := { x := 300, y := 1000 }
        rotation := 0
        tilt := 0
        springCompression := 0
        onGround := false
        airborneTimer := 1 / 2 }
    cameraX := 1440
    status := Status.playing
    elapsed := 10 }

/-- A playing character whose body circle overlaps the first hazard. -/
def onSpikes : SimState :=
  { character :=
      { position := { x := 660, y := 450 }
        velocity := { x := 0, y := 0 }
        rotation := 0
        tilt := 0
        springCompression := 0
        onGround := false
        airborneTimer := 0 }
    cameraX := 0
    status := Status.playing
    elapsed := 1 }

/-- ArrowUp and ArrowRight held. -/
def jumpRightKeys : Keys :=
  { ArrowLeft := false, ArrowRight := true, ArrowUp := true, Space := false }

/-- A character falling fast onto the first platform, two units into it. -/
def fallingOnFirst : Character :=
  { position := { x := 140, y := 472 }
    velocity := { x := 50, y := 600 }
    rotation := 0
    tilt := 0
    springCompression := 0
    onGround := false
    airborneTimer := 1 / 4 }

/-- A playing character at rest on the top of the first platform. -/
def restOnFirst : SimState :=
  { character :=
      { position := { x := 140, y := 470 }
        velocity := { x := 0, y := 0 }
        rotation := 0
        tilt := 0
        springCompression := 0
        onGround := true
        airborneTimer := 0 }
    cameraX := 0
    status := Status.playing
    elapsed := 2 }

/-- A playing character at rest on the top of the second platform, at its
right edge `x = 700 + 280`. -/
def restOnEdge : SimState :=
  { character :=
      { position := { x := 980, y := 450 }
        velocity := { x := 0, y := 0 }
        rotation := 0
        tilt := 0
        springCompression := 0
        onGround := true
        airborneTimer := 0 }
    cameraX := 500
    status := Status.playing
    elapsed := 5 }

/-- A playing character on the top of the first platform, grounded, sliding
right at 100 units per second. -/
def slidingOnFirst : SimState :=
  { character :=
      { position := { x := 140, y := 470 }
        velocity := { x := 100, y := 0 }
        rotation := 0
        tilt := 0
        springCompression := 0
        onGround := true
        airborneTimer := 0 }
    cameraX := 0
    status := Status.playing
    elapsed := 2 }

/-- Five frames of 10 ms. -/
def fineDeltas : List ℚ := [1 / 100, 1 / 100, 1 / 100, 1 / 100, 1 / 100]

/-- One frame of 50 ms. -/
def coarseDeltas : List ℚ := [5 / 100]

/-- A stepper at the start of a run, with 10 ms left in the accumulator. -/
def midStepper : Stepper :=
  { state := startState, accumulator := 1 / 100, updateCalls := 0 }

/-- Scenario A: a playing character at rest at `(140, 200)`, above the first
platform. -/
def dropState : SimState :=
  { character :=
      { position := { x := 140, y := 200 }
        velocity := { x := 0, y := 0 }
        rotation := 0
        tilt := 0
        springCompression := 0
        onGround := false
        airborneTimer := 0 }
    cameraX := 0
    status := Status.playing
    elapsed := 0 }

/-- A character moving upward whose head is above the ceiling: head height
`150 - 145 = 5`. -/
def bonkCharacter : Character :=
  { position := { x := 300, y := 150 }
    velocity := { x := 10, y := -500 }
    rotation := 0
    tilt := 0
    springCompression := 0
    onGround := false
    airborneTimer := 1 / 5 }

/-- A character moving upward fast enough for one step of 1/60 to leave its
pole top in the band `[430, 470]` of the first platform, still moving upward.
Its grounded flag is set: `integrate` clears it before the resolver runs. -/
def poleTipStart : Character :=
  { position := { x := 140, y := 503 }
    velocity := { x := 0, y := -200 }
    rotation := 0
    tilt := 0
    springCompression := 0
    onGround := true
    airborneTimer := 0 }

/-- A playing state in mid-level: character at `x = 1000`, camera at 400. -/
def midLevelState : SimState :=
  { character :=
      { position := { x := 1000, y := 300 }
        velocity := { x := 100, y := 0 }
        rotation := 0
        tilt := 0
        springCompression := 0
        onGround := false
        airborneTimer := 0 }
    cameraX := 400
    status := Status.playing
    elapsed := 4 }

/-- A stepper at the start of a run whose accumulator is the double just
below the double nearest to `1 / 60`: `4803839602528528 / 2 ^ 58`, about
`0.016666666666666663`. -/
def nearStepStepper : Stepper :=
  { state := startState, accumulator := 4803839602528528 / 2 ^ 58, updateCalls := 0 }

/-- Two frame deltas, each a double: `4803839602528528 / 2 ^ 58` and
`3 / 2 ^ 61`. -/
def twoDeltas : List ℚ := [4803839602528528 / 2 ^ 58, 3 / 2 ^ 61]

/-- Three frame deltas, each a double, with the same sum as `twoDeltas`:
`5 / 2 ^ 62`, `(2 ^ 52 - 1) / 2 ^ 58` and `4803839602528529 / 2 ^ 62`. -/
def threeDeltas : List ℚ :=
  [5 / 2 ^ 62, 4503599627370495 / 2 ^ 58, 4803839602528529 / 2 ^ 62]

/-! ## General lemmas -/

theorem clamp_bounds (v : ℚ) {lo hi : ℚ} (h : lo ≤ hi) :
    lo ≤ clamp v lo hi ∧ clamp v lo hi ≤ hi := by
  unfold clamp
  exact ⟨le_max_left _ _, max_le h (min_le_left _ _)⟩

theorem clamp_of_mem {v lo hi : ℚ} (h1 : lo ≤ v) (h2 : v ≤ hi) : clamp v lo hi = v := by
  unfold clamp
  rw [min_eq_right h2, max_eq_right h1]

/-- The clamped coordinate is the nearest one of the interval. -/
theorem clamp_sq_le (c : ℚ) {lo hi p : ℚ} (h1 : lo ≤ p) (h2 : p ≤ hi) :
    (c - clamp c lo hi) ^ 2 ≤ (c - p) ^ 2 := by
  unfold clamp
  rcases le_total hi c with h | h
  · rw [min_eq_left h, max_eq_right (h1.trans h2)]
    nlinarith
  · rw [min_eq_right h]
    rcases le_total lo c with h3 | h3
    · rw [max_eq_right h3]
      nlinarith [sq_nonneg (c - p)]
    · rw [max_eq_left h3]
      nlinarith

/-- What `updatePhysics` computes from a playing state. -/
theorem updatePhysics_playing (keys : Keys) (step : ℚ) (s : SimState)
    (h : s.status = Status.playing) :
    updatePhysics keys step s =
      { character :=
          settle keys step (resolveCeiling (resolveCollisions (integrate keys step s.character)))
        cameraX := s.cameraX
        status :=
          if (settle keys step
                (resolveCeiling (resolveCollisions (integrate keys step s.character)))).position.x
              ≥ LEVEL.finish.x + LEVEL.finish.width / 2
          then Status.victory
          else resolveHazards Status.playing (resolveCollisions (integrate keys step s.character))
        elapsed := s.elapsed + step } := by
  unfold updatePhysics
  simp [h]

theorem collidePlatform_velocity_x (foot : Vec2) (ch : Character) (p : Platform) :
    (collidePlatform foot ch p).velocity.x = ch.velocity.x := by
  unfold collidePlatform
  simp only
  split_ifs <;> rfl

theorem collidePlatform_position_x (foot : Vec2) (ch : Character) (p : Platform) :
    (collidePlatform foot ch p).position.x = ch.position.x := by
  unfold collidePlatform
  simp only
  split_ifs <;> rfl

theorem foldl_collide_velocity_x (foot : Vec2) (ps : List Platform) (ch : Character) :
    (ps.foldl (collidePlatform foot) ch).velocity.x = ch.velocity.x := by
  induction ps generalizing ch with
  | nil => rfl
  | cons p ps ih => rw [List.foldl_cons, ih, collidePlatform_velocity_x]

theorem foldl_collide_position_x (foot : Vec2) (ps : List Platform) (ch : Character) :
    (ps.foldl (collidePlatform foot) ch).position.x = ch.position.x := by
  induction ps generalizing ch with
  | nil => rfl
  | cons p ps ih => rw [List.foldl_cons, ih, collidePlatform_position_x]

theorem resolveCollisions_velocity_x (ch : Character) :
    (resolveCollisions ch).velocity.x = ch.velocity.x :=
  foldl_collide_velocity_x _ _ _

theorem resolveCollisions_position_x (ch : Character) :
    (resolveCollisions ch).position.x = ch.position.x :=
  foldl_collide_position_x _ _ _

theorem resolveCeiling_velocity_x (ch : Character) :
    (resolveCeiling ch).velocity.x = ch.velocity.x := by
  unfold resolveCeiling
  simp only
  split_ifs <;> rfl

theorem resolveCeiling_position_x (ch : Character) :
    (resolveCeiling ch).position.x = ch.position.x := by
  unfold resolveCeiling
  simp only
  split_ifs <;> rfl

theorem resolveCeiling_onGround (ch : Character) :
    (resolveCeiling ch).onGround = ch.onGround := by
  unfold resolveCeiling
  simp only
  split_ifs <;> rfl

theorem settle_position (keys : Keys) (step : ℚ) (ch : Character) :
    (settle keys step ch).position = ch.position := rfl

/-- The horizontal position at the end of a tick is the one left by the
collision resolver. -/
theorem final_position_x (keys : Keys) (step : ℚ) (ch : Character) :
    (settle keys step (resolveCeiling (resolveCollisions ch))).position.x =
      (resolveCollisions ch).position.x := by
  rw [settle_position, resolveCeiling_position_x]

theorem integrate_velocity_x_bounds (keys : Keys) (step : ℚ) (ch : Character) :
    -420 ≤ (integrate keys step ch).velocity.x ∧ (integrate keys step ch).velocity.x ≤ 420 := by
  have h : ∀ v : ℚ, -420 ≤ clamp v (-MAX_VELOCITY_X) MAX_VELOCITY_X ∧
      clamp v (-MAX_VELOCITY_X) MAX_VELOCITY_X ≤ 420 := by
    intro v
    have h0 := clamp_bounds v (show (-MAX_VELOCITY_X : ℚ) ≤ MAX_VELOCITY_X by
      norm_num [MAX_VELOCITY_X])
    simpa [MAX_VELOCITY_X] using h0
  unfold integrate
  exact h _

theorem settle_velocity_x_bounds (keys : Keys) (step : ℚ) (ch : Character)
    (h : -420 ≤ ch.velocity.x ∧ ch.velocity.x ≤ 420) :
    -420 ≤ (settle keys step ch).velocity.x ∧ (settle keys step ch).velocity.x ≤ 420 := by
  obtain ⟨h1, h2⟩ := h
  have hc := clamp_bounds (ch.velocity.x * (82 / 100)) (show (-1 : ℚ) ≤ 1 by norm_num)
  unfold settle
  simp only [AIR_DRAG]
  cases ch.onGround <;> cases keys.ArrowUp <;> cases keys.Space <;>
    simp <;> constructor <;> linarith [hc.1, hc.2]

theorem triggerFail_playing : triggerFail Status.playing = Status.fail := by
  simp [triggerFail]

theorem resolveHazards_playing_ne_victory (ch : Character) :
    resolveHazards Status.playing ch ≠ Status.victory := by
  unfold resolveHazards
  rw [triggerFail_playing]
  split_ifs <;> simp

/-- A hazard contact, or a depth beyond 760, fails a playing state. -/
theorem resolveHazards_playing_of_contact (ch : Character) (hazard : Rect)
    (hm : hazard ∈ LEVEL.hazards) (hc : hazardContact ch hazard = true) :
    resolveHazards Status.playing ch = Status.fail := by
  unfold resolveHazards
  rw [triggerFail_playing, if_pos (List.any_eq_true.mpr ⟨hazard, hm, hc⟩)]

theorem resolveHazards_playing_of_depth (ch : Character) (h : ch.position.y > 760) :
    resolveHazards Status.playing ch = Status.fail := by
  unfold resolveHazards
  rw [triggerFail_playing]
  split_ifs <;> rfl

theorem rectCircleIntersect_of_meets (rect : Rect) (cx cy r : ℚ)
    (h : circleMeetsRect rect cx cy r) : rectCircleIntersect rect cx cy r = true := by
  obtain ⟨px, py, ⟨hx1, hx2, hy1, hy2⟩, hd⟩ := h
  have h1 := clamp_sq_le cx hx1 hx2
  have h2 := clamp_sq_le cy hy1 hy2
  unfold rectCircleIntersect
  simp only [decide_eq_true_eq]
  nlinarith

theorem rectPointIntersect_of_inRect (rect : Rect) (px py : ℚ) (h : inRect rect px py) :
    rectPointIntersect rect px py = true := by
  obtain ⟨h1, h2, h3, h4⟩ := h
  simp [rectPointIntersect, h1, h2, h3, h4]

/-- A circle that meets a rectangle has its centre less than a radius to the
right of the rectangle. -/
theorem circleMeetsRect_x_lt (rect : Rect) (cx cy r : ℚ) (hr : 0 ≤ r)
    (h : circleMeetsRect rect cx cy r) : cx < rect.x + rect.width + r := by
  obtain ⟨px, py, ⟨_, hx2, _, _⟩, hd⟩ := h
  by_contra hcon
  push_neg at hcon
  nlinarith [sq_nonneg (py - cy), sq_nonneg (cx - px - r)]

/-! ## The state machine: frozen terminal states, Fail and Victory -/

/-- C1: from a state whose status is not Playing (Victory or Fail), one call
of `updatePhysics`, with any held keys and any step, returns the state
unchanged (the whole record: every character field, the status, the elapsed
time and `cameraX`), and so does any sequence of calls, whatever the keys and
step of each call. -/
theorem updatePhysics_terminal_frozen (keys : Keys) (step : ℚ) (s : SimState)
    (h : s.status ≠ Status.playing) :
    updatePhysics keys step s = s ∧
      (∀ n : ℕ, (updatePhysics keys step)^[n] s = s) ∧
      ∀ calls : List (Keys × ℚ),
        calls.foldl (fun st call => updatePhysics call.1 call.2 st) s = s := by
  have h1 : ∀ (k : Keys) (d : ℚ), updatePhysics k d s = s := by
    intro k d
    unfold updatePhysics
    rw [if_pos h]
  refine ⟨h1 keys step, fun n => Function.iterate_fixed (h1 keys step) n, ?_⟩
  intro calls
  induction calls with
  | nil => rfl
  | cons call rest ih => rw [List.foldl_cons, h1, ih]

theorem updatePhysics_terminal_frozen_witness :
    failedState.status ≠ Status.playing ∧ updatePhysics rightKeys STEP_TIME failedState = failedState :=
  ⟨by simp [failedState],
   (updatePhysics_terminal_frozen rightKeys STEP_TIME failedState (by simp [failedState])).1⟩

/-- C2, evaluation at the failing input: from the playing state
`abyssNearFinish` with ArrowRight held, the tick leaves `position.y > 760` and
the hazard detector does trigger Fail, yet the status after the call is
Victory: the finish test of lines 189-194 overwrites the status without
testing that it is still Playing. -/
theorem updatePhysics_abyss_ends_in_victory :
    abyssNearFinish.status = Status.playing ∧
      resolveHazards Status.playing
          (resolveCollisions (integrate rightKeys STEP_TIME abyssNearFinish.character)) =
        Status.fail ∧
      (updatePhysics rightKeys STEP_TIME abyssNearFinish).character.position.y > 760 ∧
      (updatePhysics rightKeys STEP_TIME abyssNearFinish).status = Status.victory := by
  norm_num [updatePhysics, abyssNearFinish, rightKeys, STEP_TIME, integrate, resolveCollisions,
    LEVEL, collidePlatform, getFootPosition, resolveCeiling, settle, clamp, MAX_VELOCITY_X,
    GRAVITY, POGO_LENGTH, BODY_RADIUS, HEAD_RADIUS, AIR_DRAG, resolveHazards, hazardContact,
    rectCircleIntersect, rectPointIntersect, triggerFail]

/-- C3: after one call of `updatePhysics` from a playing state, with any held
keys and any step (in particular 1/60), `velocity.x` lies in [-420, 420]; the
ticks in which the jump kick is added after the clamp are included. -/
theorem updatePhysics_velocity_x_bounded (keys : Keys) (step : ℚ) (s : SimState)
    (h : s.status = Status.playing) :
    -420 ≤ (updatePhysics keys step s).character.velocity.x ∧
      (updatePhysics keys step s).character.velocity.x ≤ 420 := by
  rw [updatePhysics_playing keys step s h]
  apply settle_velocity_x_bounds
  rw [resolveCeiling_velocity_x, resolveCollisions_velocity_x]
  exact integrate_velocity_x_bounds keys step s.character

theorem updatePhysics_velocity_x_bounded_witness :
    startState.status = Status.playing ∧
      -420 ≤ (updatePhysics rightKeys STEP_TIME startState).character.velocity.x ∧
      (updatePhysics rightKeys STEP_TIME startState).character.velocity.x ≤ 420 :=
  ⟨rfl, updatePhysics_velocity_x_bounded rightKeys STEP_TIME startState rfl⟩

/-- C4: the finish centre `finish.x + finish.width / 2` is 2170, and after one
call of `updatePhysics` from a playing state the status is Victory if and only
if `position.x` after the call is at least 2170. -/
theorem updatePhysics_victory_iff (keys : Keys) (step : ℚ) (s : SimState)
    (h : s.status = Status.playing) :
    LEVEL.finish.x + LEVEL.finish.width / 2 = 2170 ∧
      ((updatePhysics keys step s).status = Status.victory ↔
        (updatePhysics keys step s).character.position.x ≥ 2170) := by
  have hc : LEVEL.finish.x + LEVEL.finish.width / 2 = 2170 := by norm_num [LEVEL]
  refine ⟨hc, ?_⟩
  rw [updatePhysics_playing keys step s h, hc]
  simp only
  constructor
  · intro hv
    by_contra hx
    rw [if_neg hx] at hv
    exact resolveHazards_playing_ne_victory _ hv
  · intro hx
    rw [if_pos hx]

theorem updatePhysics_victory_iff_witness :
    abyssNearFinish.status = Status.playing ∧
      ((updatePhysics rightKeys STEP_TIME abyssNearFinish).status = Status.victory ↔
        (updatePhysics rightKeys STEP_TIME abyssNearFinish).character.position.x ≥ 2170) :=
  ⟨rfl, (updatePhysics_victory_iff rightKeys STEP_TIME abyssNearFinish rfl).2⟩

/-- C5: for the shipped level, if at the position `(x, y)` left by the
collision resolver during the tick the body circle (centre `(x, y - 77)`,
radius 28) or the head circle (centre `(x, y - 117)`, radius 18) has a point
of some hazard rectangle at distance less than its radius, or the foot point
`(x, y + 4)` lies in some hazard rectangle, then the status after the call of
`updatePhysics` from a playing state is Fail. -/
theorem updatePhysics_hazard_fails (keys : Keys) (step : ℚ) (s : SimState)
    (h : s.status = Status.playing) (hazard : Rect) (hm : hazard ∈ LEVEL.hazards)
    (hit :
      circleMeetsRect hazard
          (resolveCollisions (integrate keys step s.character)).position.x
          ((resolveCollisions (integrate keys step s.character)).position.y - 77) 28 ∨
        circleMeetsRect hazard
          (resolveCollisions (integrate keys step s.character)).position.x
          ((resolveCollisions (integrate keys step s.character)).position.y - 117) 18 ∨
        inRect hazard
          (resolveCollisions (integrate keys step s.character)).position.x
          ((resolveCollisions (integrate keys step s.character)).position.y + 4)) :
    (updatePhysics keys step s).status = Status.fail := by
  rw [updatePhysics_playing keys step s h]
  simp only
  rw [final_position_x]
  generalize resolveCollisions (integrate keys step s.character) = ch at hit ⊢
  have hright : hazard.x + hazard.width ≤ 1390 := by
    simp only [LEVEL, List.mem_cons, List.mem_singleton, List.not_mem_nil, or_false] at hm
    rcases hm with rfl | rfl <;> norm_num
  have hx : ¬ ch.position.x ≥ LEVEL.finish.x + LEVEL.finish.width / 2 := by
    have hc : LEVEL.finish.x + LEVEL.finish.width / 2 = 2170 := by norm_num [LEVEL]
    rw [hc]
    rcases hit with hb | hh | hf
    · have := circleMeetsRect_x_lt _ _ _ _ (by norm_num) hb
      linarith
    · have := circleMeetsRect_x_lt _ _ _ _ (by norm_num) hh
      linarith
    · have := hf.2.1
      linarith
  rw [if_neg hx]
  apply resolveHazards_playing_of_contact ch hazard hm
  have e77 : POGO_LENGTH * (7 / 10) = 77 := by norm_num [POGO_LENGTH]
  have e117 : ∀ y : ℚ, y - 77 - BODY_RADIUS - HEAD_RADIUS + 6 = y - 117 := by
    intro y
    norm_num [BODY_RADIUS, HEAD_RADIUS]
    ring
  unfold hazardContact
  simp only [getFootPosition, e77, e117, Bool.or_eq_true]
  rcases hit with hb | hh | hf
  · exact Or.inl (Or.inl (rectCircleIntersect_of_meets _ _ _ _ hb))
  · exact Or.inl (Or.inr (rectCircleIntersect_of_meets _ _ _ _ hh))
  · exact Or.inr (rectPointIntersect_of_inRect _ _ _ hf)

theorem updatePhysics_hazard_fails_witness :
    onSpikes.status = Status.playing ∧
      (updatePhysics noKeys STEP_TIME onSpikes).status = Status.fail :=
  ⟨rfl,
   updatePhysics_hazard_fails noKeys STEP_TIME onSpikes rfl
     { x := 620, y := 470, width := 80, height := 90 } (by simp [LEVEL])
     (Or.inl ⟨660, 380, by norm_num [inRect], by
       norm_num [onSpikes, noKeys, STEP_TIME, integrate, resolveCollisions, LEVEL,
         collidePlatform, getFootPosition, clamp, MAX_VELOCITY_X, GRAVITY, POGO_LENGTH,
         BODY_RADIUS]⟩)⟩

/-! ## The collision resolver on the shipped level -/

/-- A platform whose span does not contain the foot leaves a character that is
not moving upward unchanged. -/
theorem collidePlatform_miss (foot : Vec2) (ch : Character) (p : Platform)
    (hfoot : ¬ (foot.x ≥ p.x ∧ foot.x ≤ p.x + p.width)) (hv : ¬ ch.velocity.y < 0) :
    collidePlatform foot ch p = ch := by
  unfold collidePlatform
  simp only [if_neg hfoot]
  split_ifs with h1 h2
  · exact absurd h2.2.2 hv
  · rfl
  · rfl

/-- A platform whose span, widened by the body radius, does not contain the
character leaves it unchanged. -/
theorem collidePlatform_far (foot : Vec2) (ch : Character) (p : Platform)
    (hfoot : ¬ (foot.x ≥ p.x ∧ foot.x ≤ p.x + p.width))
    (hbody : ¬ (ch.position.x + 28 > p.x ∧ ch.position.x - 28 < p.x + p.width)) :
    collidePlatform foot ch p = ch := by
  unfold collidePlatform
  simp only [if_neg hfoot, BODY_RADIUS]
  split_ifs with h1 h2
  · exact absurd ⟨h2.1, h2.2.1⟩ hbody
  · rfl
  · rfl

/-- The foot test of the platform under the foot, for a character that is not
moving upward; the pole-tip test of the same platform does not fire after it. -/
theorem collidePlatform_land (foot : Vec2) (ch : Character) (p : Platform)
    (hfy : foot.y = ch.position.y)
    (hx1 : p.x ≤ foot.x) (hx2 : foot.x ≤ p.x + p.width)
    (hy1 : 0 ≤ foot.y - p.y) (hy2 : foot.y - p.y ≤ p.height + 60)
    (hv : 0 ≤ ch.velocity.y) :
    collidePlatform foot ch p =
      { ch with
        position := { x := ch.position.x, y := p.y }
        velocity :=
          { x := ch.velocity.x
            y := if |ch.velocity.y * -p.bounce| < 60 then 0 else ch.velocity.y * -p.bounce }
        onGround := true } := by
  have hpos : ch.position.y - (foot.y - p.y) = p.y := by rw [hfy]; ring
  have hpole : ¬ (p.y - POGO_LENGTH * (1 / 2) ≤ p.y ∧ p.y - POGO_LENGTH * (1 / 2) ≥ p.y - 40) := by
    rintro ⟨_, h⟩
    norm_num [POGO_LENGTH] at h
    linarith
  unfold collidePlatform
  simp only [ge_iff_le, hx1, hx2, hy1, hy2, hv, and_self, if_true, hpos, if_neg hpole]

/-- On the shipped level, a character that is not moving upward and whose foot
is in the catch band of a platform is resolved by that platform alone. -/
theorem resolveCollisions_land (p : Platform) (hp : p ∈ LEVEL.platforms) (ch : Character)
    (hx1 : p.x ≤ ch.position.x) (hx2 : ch.position.x ≤ p.x + p.width)
    (hy1 : 0 ≤ ch.position.y - p.y) (hy2 : ch.position.y - p.y ≤ p.height + 60)
    (hv0 : 0 ≤ ch.velocity.y) :
    resolveCollisions ch =
      { ch with
        position := { x := ch.position.x, y := p.y }
        velocity :=
          { x := ch.velocity.x
            y := if |ch.velocity.y * -p.bounce| < 60 then 0 else ch.velocity.y * -p.bounce }
        onGround := true } := by
  simp only [LEVEL, List.mem_cons, List.mem_singleton, List.not_mem_nil, or_false] at hp
  simp only [resolveCollisions, LEVEL, List.foldl_cons, List.foldl_nil]
  rcases hp with rfl | rfl | rfl | rfl | rfl
  all_goals
    have hx1c := hx1
    have hx2c := hx2
    norm_num at hx1c hx2c
    repeat first
      | rw [collidePlatform_miss _ ch _
          (by simp only [getFootPosition]; rintro ⟨h1, h2⟩; norm_num at h1 h2; linarith)
          (by linarith)]
      | rw [collidePlatform_land (getFootPosition ch) ch _ rfl hx1 hx2 hy1 hy2 hv0]
      | rw [collidePlatform_far _ _ _
          (by simp only [getFootPosition]; rintro ⟨h1, h2⟩; norm_num at h1 h2; linarith)
          (by
            simp only [collidePlatform_position_x]
            rintro ⟨h1, h2⟩
            norm_num at h1 h2
            linarith)]

theorem platform_bounce_pos (p : Platform) (hp : p ∈ LEVEL.platforms) : 0 < p.bounce := by
  simp only [LEVEL, List.mem_cons, List.mem_singleton, List.not_mem_nil, or_false] at hp
  rcases hp with rfl | rfl | rfl | rfl | rfl <;> norm_num

theorem platform_height_ge (p : Platform) (hp : p ∈ LEVEL.platforms) : 220 ≤ p.height := by
  simp only [LEVEL, List.mem_cons, List.mem_singleton, List.not_mem_nil, or_false] at hp
  rcases hp with rfl | rfl | rfl | rfl | rfl <;> norm_num

/-- C6: for every platform `p` of the shipped level, with bounce coefficient
`b`, and every character whose foot x lies in `[p.x, p.x + p.width]`, whose
penetration `position.y - p.y` lies in `[0, p.height + 60]` and whose
`velocity.y = v` is at least `60 / b`: `resolveCollisions` returns the
character with `velocity.y = -(v * b)` exactly, `position.y = p.y` and
`onGround = true`, every other field unchanged; so no test of another platform
alters the result. -/
theorem resolveCollisions_bounce (p : Platform) (hp : p ∈ LEVEL.platforms) (ch : Character)
    (hx1 : p.x ≤ ch.position.x) (hx2 : ch.position.x ≤ p.x + p.width)
    (hy1 : 0 ≤ ch.position.y - p.y) (hy2 : ch.position.y - p.y ≤ p.height + 60)
    (hv : ch.velocity.y ≥ 60 / p.bounce) :
    resolveCollisions ch =
        { ch with
          position := { x := ch.position.x, y := p.y }
          velocity := { x := ch.velocity.x, y := -(ch.velocity.y * p.bounce) }
          onGround := true } ∧
      (resolveCollisions ch).velocity.y = -(ch.velocity.y * p.bounce) ∧
      (resolveCollisions ch).position.y = p.y ∧
      (resolveCollisions ch).onGround = true := by
  have hbpos : 0 < p.bounce := platform_bounce_pos p hp
  have hb : 60 ≤ ch.velocity.y * p.bounce := (div_le_iff₀ hbpos).mp hv
  have hv0 : 0 ≤ ch.velocity.y := le_trans (div_nonneg (by norm_num) hbpos.le) hv
  have habs : ¬ |ch.velocity.y * -p.bounce| < 60 := by
    rw [mul_neg, abs_neg, abs_of_nonneg (by linarith)]
    linarith
  rw [resolveCollisions_land p hp ch hx1 hx2 hy1 hy2 hv0, if_neg habs, mul_neg]
  exact ⟨rfl, rfl, rfl, rfl⟩

theorem resolveCollisions_bounce_witness :
    (resolveCollisions fallingOnFirst).velocity.y = -(600 * (28 / 100)) ∧
      (resolveCollisions fallingOnFirst).position.y = 470 ∧
      (resolveCollisions fallingOnFirst).onGround = true :=
  (resolveCollisions_bounce
    { x := 0, y := 470, width := 620, height := 250, bounce := 28 / 100 }
    (by simp [LEVEL]) fallingOnFirst
    (by norm_num [fallingOnFirst]) (by norm_num [fallingOnFirst])
    (by norm_num [fallingOnFirst]) (by norm_num [fallingOnFirst])
    (by norm_num [fallingOnFirst])).2

/-! ## The stepper -/

/-! ### Rounding to double precision -/

theorem roundHalfEven_bounds (y : ℚ) :
    y - 1 / 2 ≤ roundHalfEven y ∧ (roundHalfEven y : ℚ) ≤ y + 1 / 2 := by
  have h1 := Int.floor_le y
  have h2 := Int.lt_floor_add_one y
  unfold roundHalfEven
  split_ifs <;> push_cast <;> constructor <;> linarith

theorem roundHalfEven_eq_of_abs_lt (y : ℚ) (m : ℤ) (h : |y - m| < 1 / 2) :
    roundHalfEven y = m := by
  obtain ⟨b1, b2⟩ := roundHalfEven_bounds y
  rw [abs_lt] at h
  have h3 : ((roundHalfEven y - m : ℤ) : ℚ) < 1 := by push_cast; linarith
  have h4 : (-1 : ℚ) < ((roundHalfEven y - m : ℤ) : ℚ) := by push_cast; linarith
  have h5 : roundHalfEven y - m < 1 := by exact_mod_cast h3
  have h6 : -1 < roundHalfEven y - m := by exact_mod_cast h4
  omega

theorem roundHalfEven_intCast (m : ℤ) : roundHalfEven (m : ℚ) = m :=
  roundHalfEven_eq_of_abs_lt _ m (by simp)

theorem roundHalfEven_mono {y1 y2 : ℚ} (h : y1 ≤ y2) : roundHalfEven y1 ≤ roundHalfEven y2 := by
  have hf : ⌊y1⌋ ≤ ⌊y2⌋ := Int.floor_mono h
  rcases hf.lt_or_eq with hlt | heq
  · -- different floors
    have a1 : roundHalfEven y1 ≤ ⌊y1⌋ + 1 := by
      unfold roundHalfEven
      split_ifs <;> omega
    have a2 : ⌊y2⌋ ≤ roundHalfEven y2 := by
      unfold roundHalfEven
      split_ifs <;> omega
    omega
  · unfold roundHalfEven
    rw [← heq]
    split_ifs <;> first | omega | (exfalso; linarith)

theorem roundHalfEven_nonneg {y : ℚ} (h : 0 ≤ y) : 0 ≤ roundHalfEven y := by
  have := roundHalfEven_mono h
  rwa [show roundHalfEven 0 = 0 from roundHalfEven_intCast 0] at this

theorem two_zpow_pos (e : ℤ) : (0 : ℚ) < 2 ^ e := zpow_pos (by norm_num) e

/-- Rounding on a fixed grid is monotone. -/
theorem roundGrid_mono (e : ℤ) {x y : ℚ} (h : x ≤ y) :
    (roundHalfEven (x / 2 ^ e) : ℚ) * 2 ^ e ≤ roundHalfEven (y / 2 ^ e) * 2 ^ e := by
  have hp := two_zpow_pos e
  have h1 : x / 2 ^ e ≤ y / 2 ^ e := div_le_div_of_nonneg_right h hp.le
  have h2 : (roundHalfEven (x / 2 ^ e) : ℚ) ≤ roundHalfEven (y / 2 ^ e) := by
    exact_mod_cast roundHalfEven_mono h1
  exact mul_le_mul_of_nonneg_right h2 hp.le

/-- A power of two at or above the grid exponent is on the grid. -/
theorem roundGrid_zpow (a n : ℤ) (h : a ≤ n) :
    (roundHalfEven ((2 : ℚ) ^ n / 2 ^ a) : ℚ) * 2 ^ a = 2 ^ n := by
  obtain ⟨k, hk⟩ := Int.eq_ofNat_of_zero_le (show 0 ≤ n - a by omega)
  have e1 : (2 : ℚ) ^ n / 2 ^ a = (((2 : ℤ) ^ k : ℤ) : ℚ) := by
    rw [← zpow_sub₀ (by norm_num : (2 : ℚ) ≠ 0), hk, zpow_natCast]
    push_cast
    rfl
  rw [e1, roundHalfEven_intCast, ← e1]
  field_simp

theorem log_bounds {x : ℚ} (hx : 0 < x) :
    (2 : ℚ) ^ Int.log 2 x ≤ x ∧ x < (2 : ℚ) ^ (Int.log 2 x + 1) := by
  have h1 := Int.zpow_log_le_self (show 1 < 2 by norm_num) hx
  have h2 := Int.lt_zpow_succ_log_self (show 1 < 2 by norm_num) x
  simpa using And.intro h1 h2

theorem roundDouble_zero : roundDouble 0 = 0 := by
  simp [roundDouble, roundHalfEven]

theorem roundDouble_nonneg {x : ℚ} (h : 0 ≤ x) : 0 ≤ roundDouble x := by
  unfold roundDouble
  have hp := two_zpow_pos (ulpExp x)
  have : (0 : ℚ) ≤ roundHalfEven (x / 2 ^ ulpExp x) := by
    exact_mod_cast roundHalfEven_nonneg (div_nonneg h hp.le)
  exact mul_nonneg this hp.le

theorem roundDouble_mono {x y : ℚ} (hx : 0 ≤ x) (h : x ≤ y) : roundDouble x ≤ roundDouble y := by
  rcases hx.lt_or_eq with hpos | hzero
  swap
  · rw [← hzero, roundDouble_zero]
    exact roundDouble_nonneg (hx.trans h)
  have hy : 0 < y := lt_of_lt_of_le hpos h
  have hlog : Int.log 2 x ≤ Int.log 2 y := Int.log_mono_right hpos h
  have hax : |x| = x := abs_of_pos hpos
  have hay : |y| = y := abs_of_pos hy
  have hu : ulpExp x ≤ ulpExp y := by
    unfold ulpExp
    rw [hax, hay]
    exact max_le_max (by omega) le_rfl
  rcases hu.lt_or_eq with hlt | heq
  · -- the binade of `y` is higher: a power of two separates them
    have hb : ulpExp y = Int.log 2 y - 52 := by
      unfold ulpExp at hlt ⊢
      rw [hax, hay] at hlt
      rw [hay]
      rcases le_total (Int.log 2 y - 52) (-1074) with hc | hc
      · rw [max_eq_right hc] at hlt
        exact absurd hlt (not_lt.mpr (le_max_right _ _))
      · exact max_eq_left hc
    have ha : Int.log 2 x - 52 ≤ ulpExp x := by
      unfold ulpExp
      rw [hax]
      exact le_max_left _ _
    have hxy : Int.log 2 x + 1 ≤ Int.log 2 y := by omega
    have bx := (log_bounds hpos).2
    have by1 := (log_bounds hy).1
    have hP1 : x ≤ (2 : ℚ) ^ Int.log 2 y :=
      (bx.le).trans (zpow_le_zpow_right₀ (by norm_num) hxy)
    have s1 := roundGrid_mono (ulpExp x) hP1
    have s2 := roundGrid_mono (ulpExp y) by1
    rw [roundGrid_zpow _ _ (by omega)] at s1 s2
    unfold roundDouble
    exact s1.trans s2
  · unfold roundDouble
    rw [heq]
    exact roundGrid_mono _ h

/-- Evaluation of `roundDouble` at a positive normal number. -/
theorem roundDouble_eval (x : ℚ) (e m : ℤ) (h1 : (2 : ℚ) ^ e ≤ x) (h2 : x < (2 : ℚ) ^ (e + 1))
    (he : -1022 ≤ e) (hm : |x / 2 ^ (e - 52) - m| < 1 / 2) :
    roundDouble x = m * 2 ^ (e - 52) := by
  have hx : 0 < x := lt_of_lt_of_le (two_zpow_pos e) h1
  have hlog : Int.log 2 x = e := by
    have a1 : e ≤ Int.log 2 x := (Int.zpow_le_iff_le_log (show 1 < 2 by norm_num) hx).mp (by simpa using h1)
    have a2 : Int.log 2 x < e + 1 :=
      (Int.lt_zpow_iff_log_lt (show 1 < 2 by norm_num) hx).mp (by simpa using h2)
    omega
  have hu : ulpExp x = e - 52 := by
    unfold ulpExp
    rw [abs_of_pos hx, hlog]
    exact max_eq_left (by omega)
  unfold roundDouble
  rw [hu, roundHalfEven_eq_of_abs_lt _ m hm]


theorem roundHalfEven_tie_even (m : ℤ) (hm : m % 2 = 0) : roundHalfEven (m + 1 / 2) = m := by
  have hf : ⌊(m : ℚ) + 1 / 2⌋ = m := by
    rw [Int.floor_eq_iff]
    constructor <;> norm_num
  unfold roundHalfEven
  rw [hf]
  norm_num [hm]

theorem roundHalfEven_tie_odd (m : ℤ) (hm : m % 2 = 1) : roundHalfEven (m + 1 / 2) = m + 1 := by
  have hf : ⌊(m : ℚ) + 1 / 2⌋ = m := by
    rw [Int.floor_eq_iff]
    constructor <;> norm_num
  unfold roundHalfEven
  rw [hf]
  norm_num [hm]

/-- Evaluation of `roundDouble` at a positive normal number half-way between
two doubles. -/
theorem roundDouble_eval_tie (x : ℚ) (e m r : ℤ) (h1 : (2 : ℚ) ^ e ≤ x)
    (h2 : x < (2 : ℚ) ^ (e + 1)) (he : -1022 ≤ e) (hm : x / 2 ^ (e - 52) = m + 1 / 2)
    (hr : (m % 2 = 0 ∧ r = m) ∨ (m % 2 = 1 ∧ r = m + 1)) :
    roundDouble x = r * 2 ^ (e - 52) := by
  have hx : 0 < x := lt_of_lt_of_le (two_zpow_pos e) h1
  have hlog : Int.log 2 x = e := by
    have a1 : e ≤ Int.log 2 x :=
      (Int.zpow_le_iff_le_log (show 1 < 2 by norm_num) hx).mp (by simpa using h1)
    have a2 : Int.log 2 x < e + 1 :=
      (Int.lt_zpow_iff_log_lt (show 1 < 2 by norm_num) hx).mp (by simpa using h2)
    omega
  have hu : ulpExp x = e - 52 := by
    unfold ulpExp
    rw [abs_of_pos hx, hlog]
    exact max_eq_left (by omega)
  unfold roundDouble
  rw [hu, hm]
  rcases hr with ⟨h, hrm⟩ | ⟨h, hrm⟩
  · rw [roundHalfEven_tie_even m h, hrm]
  · rw [roundHalfEven_tie_odd m h, hrm]

/-- The double nearest to `1 / 60`; it is below `1 / 60`. -/
theorem roundDouble_STEP_TIME : roundDouble STEP_TIME = 4803839602528529 / 2 ^ 58 := by
  rw [roundDouble_eval STEP_TIME (-6) 4803839602528529 (by norm_num [STEP_TIME])
    (by norm_num [STEP_TIME]) (by norm_num) (by norm_num [STEP_TIME, abs_lt])]
  norm_num

/-- The double nearest to `0.05`; it is above `1 / 20`. -/
theorem roundDouble_twentieth : roundDouble (5 / 100) = 7205759403792794 / 2 ^ 57 := by
  rw [roundDouble_eval (5 / 100) (-5) 7205759403792794 (by norm_num)
    (by norm_num) (by norm_num) (by norm_num [abs_lt])]
  norm_num

/-! ### The loop, whatever the rounding -/

theorem stepLoop_of_lt (rd : ℚ → ℚ) (keys : Keys) (fuel : ℕ) (st : Stepper)
    (h : st.accumulator < rd STEP_TIME) : stepLoop rd keys fuel st = some st := by
  cases fuel <;> simp [stepLoop, not_le.mpr h]

theorem stepLoop_succ_of_ge (rd : ℚ → ℚ) (keys : Keys) (fuel : ℕ) (st : Stepper)
    (h : st.accumulator ≥ rd STEP_TIME) :
    stepLoop rd keys (fuel + 1) st =
      stepLoop rd keys fuel
        { state := updatePhysics keys (rd STEP_TIME) st.state
          accumulator := rd (st.accumulator - rd STEP_TIME)
          updateCalls := st.updateCalls + 1 } := by
  simp [stepLoop, h]

/-- Whatever the rounding, a run of the loop that returns has made `k` calls of
`updatePhysics`, its state is the `k`-fold update, and the accumulator it
leaves is below the step. -/
theorem stepLoop_spec (rd : ℚ → ℚ) (keys : Keys) (fuel : ℕ) (st st2 : Stepper)
    (h : stepLoop rd keys fuel st = some st2) :
    ∃ k : ℕ, k ≤ fuel ∧ st2.updateCalls = st.updateCalls + k ∧
      st2.state = (updatePhysics keys (rd STEP_TIME))^[k] st.state ∧
      st2.accumulator < rd STEP_TIME := by
  induction fuel generalizing st with
  | zero =>
    by_cases hc : st.accumulator ≥ rd STEP_TIME
    · simp [stepLoop, hc] at h
    · rw [stepLoop_of_lt rd keys 0 st (not_le.mp hc)] at h
      have e : st = st2 := Option.some.inj h
      rw [← e]
      exact ⟨0, le_rfl, rfl, rfl, not_le.mp hc⟩
  | succ fuel ih =>
    by_cases hc : st.accumulator ≥ rd STEP_TIME
    · rw [stepLoop_succ_of_ge rd keys fuel st hc] at h
      obtain ⟨k, hk, e1, e2, e3⟩ := ih _ h
      refine ⟨k + 1, by omega, ?_, ?_, e3⟩
      · rw [e1]
        simp only
        omega
      · rw [e2, Function.iterate_succ_apply]
    · rw [stepLoop_of_lt rd keys _ st (not_le.mp hc)] at h
      have e : st = st2 := Option.some.inj h
      rw [← e]
      exact ⟨0, Nat.zero_le _, rfl, rfl, not_le.mp hc⟩

/-! ### Exact arithmetic -/

theorem stepLoop_noRounding (keys : Keys) (n : ℕ) (fuel : ℕ) (st : Stepper)
    (hn : ⌊st.accumulator * 60⌋₊ = n) (hf : n ≤ fuel) :
    stepLoop noRounding keys fuel st =
      some
        { state := (updatePhysics keys STEP_TIME)^[n] st.state
          accumulator := st.accumulator - n / 60
          updateCalls := st.updateCalls + n } := by
  induction n generalizing st fuel with
  | zero =>
    have h1 : st.accumulator * 60 < 1 := Nat.floor_eq_zero.mp hn
    have h2 : st.accumulator < noRounding STEP_TIME := by
      simp only [STEP_TIME, noRounding]
      linarith
    rw [stepLoop_of_lt noRounding keys fuel st h2]
    simp
  | succ n ih =>
    have h0 : 0 < ⌊st.accumulator * 60⌋₊ := by omega
    have h1 : 1 ≤ st.accumulator * 60 := Nat.floor_pos.mp h0
    have h2 : st.accumulator ≥ noRounding STEP_TIME := by
      simp only [STEP_TIME, noRounding, ge_iff_le]
      linarith
    obtain ⟨f, rfl⟩ : ∃ f, fuel = f + 1 := ⟨fuel - 1, by omega⟩
    rw [stepLoop_succ_of_ge noRounding keys f st h2]
    have h3 : ⌊(noRounding (st.accumulator - noRounding STEP_TIME)) * 60⌋₊ = n := by
      have e : (noRounding (st.accumulator - noRounding STEP_TIME)) * 60 =
          st.accumulator * 60 - 1 := by
        simp only [STEP_TIME, noRounding]
        ring
      rw [e, Nat.floor_sub_one, hn]
      rfl
    rw [ih f _ h3 (by omega)]
    simp only [Function.iterate_succ_apply, STEP_TIME, noRounding, Nat.cast_add, Nat.cast_one]
    congr 2
    · ring
    · ring

theorem stepSimulation_noRounding (keys : Keys) (fuel : ℕ) (delta : ℚ) (st : Stepper)
    (hf : ⌊(st.accumulator + delta) * 60⌋₊ ≤ fuel) :
    stepSimulation noRounding keys fuel delta st =
      some
        { state := (updatePhysics keys STEP_TIME)^[⌊(st.accumulator + delta) * 60⌋₊] st.state
          accumulator := st.accumulator + delta - (⌊(st.accumulator + delta) * 60⌋₊ : ℕ) / 60
          updateCalls := st.updateCalls + ⌊(st.accumulator + delta) * 60⌋₊ } := by
  unfold stepSimulation
  rw [stepLoop_noRounding keys _ fuel _ rfl hf]
  rfl

/-- The remainder left after taking out the whole sub-steps. -/
theorem remainder_bounds (x : ℚ) (hx : 0 ≤ x) :
    0 ≤ x - (⌊x * 60⌋₊ : ℕ) / 60 ∧ x - (⌊x * 60⌋₊ : ℕ) / 60 < 1 / 60 := by
  have h0 : 0 ≤ x * 60 := by linarith
  have h1 : ((⌊x * 60⌋₊ : ℕ) : ℚ) ≤ x * 60 := Nat.floor_le h0
  have h2 : x * 60 < ((⌊x * 60⌋₊ : ℕ) : ℚ) + 1 := Nat.lt_floor_add_one _
  constructor <;> linarith

/-- In exact arithmetic a frame of at most `1 / 20` from an accumulator below
`1 / 60` takes at most 3 sub-steps. -/
theorem frame_floor_le_three (a d : ℚ) (h0 : 0 ≤ a) (h1 : a < 1 / 60) (hd0 : 0 ≤ d)
    (hd : d ≤ 1 / 20) : ⌊(a + d) * 60⌋₊ ≤ 3 := by
  have hk : ⌊(a + d) * 60⌋₊ < 4 := by
    rw [Nat.floor_lt (by nlinarith)]
    norm_num
    linarith
  omega

theorem runDeltas_noRounding (keys : Keys) (fuel : ℕ) (hfuel : 3 ≤ fuel) (deltas : List ℚ)
    (hd : ∀ d ∈ deltas, 0 ≤ d ∧ d ≤ 5 / 100)
    (st : Stepper) (h0 : 0 ≤ st.accumulator) (h1 : st.accumulator < 1 / 60) :
    runDeltas noRounding keys fuel deltas st =
      some
        { state :=
            (updatePhysics keys STEP_TIME)^[⌊(st.accumulator + deltas.sum) * 60⌋₊] st.state
          accumulator :=
            st.accumulator + deltas.sum - (⌊(st.accumulator + deltas.sum) * 60⌋₊ : ℕ) / 60
          updateCalls := st.updateCalls + ⌊(st.accumulator + deltas.sum) * 60⌋₊ } := by
  induction deltas generalizing st with
  | nil =>
    have hz : ⌊(st.accumulator + 0) * 60⌋₊ = 0 := by
      rw [Nat.floor_eq_zero]
      linarith
    simp only [runDeltas, List.sum_nil, hz]
    simp
  | cons d rest ih =>
    obtain ⟨hd0, hd1⟩ := hd d (List.mem_cons_self _ _)
    have hrest : ∀ e ∈ rest, 0 ≤ e ∧ e ≤ 5 / 100 := fun e he => hd e (List.mem_cons_of_mem _ he)
    have hsum : 0 ≤ rest.sum := List.sum_nonneg (fun e he => (hrest e he).1)
    have hb := remainder_bounds (st.accumulator + d) (by linarith)
    have h3 := frame_floor_le_three st.accumulator d h0 h1 hd0 (by linarith)
    have hstep := stepSimulation_noRounding keys fuel d st (by omega)
    have hrun : runDeltas noRounding keys fuel (d :: rest) st =
        (stepSimulation noRounding keys fuel d st).bind (runDeltas noRounding keys fuel rest) := rfl
    rw [hrun, hstep, Option.some_bind, ih hrest _ hb.1 hb.2]
    simp only [List.sum_cons]
    set n := ⌊(st.accumulator + d) * 60⌋₊ with hn
    have e1 : (st.accumulator + d - (n : ℚ) / 60 + rest.sum) * 60 =
        (st.accumulator + (d + rest.sum)) * 60 - n := by ring
    have hle : n ≤ ⌊(st.accumulator + (d + rest.sum)) * 60⌋₊ := by
      apply Nat.floor_mono
      linarith
    rw [e1, Nat.floor_sub_nat]
    set K := ⌊(st.accumulator + (d + rest.sum)) * 60⌋₊ with hK
    have e2 : K - n + n = K := Nat.sub_add_cancel hle
    have e3 : ((K - n : ℕ) : ℚ) = (K : ℚ) - n := Nat.cast_sub hle
    rw [← Function.iterate_add_apply, e2, e3]
    congr 2
    · ring
    · omega

/-! ### Double arithmetic -/

theorem roundDouble_STEP_TIME_bounds :
    17 / 1024 ≤ roundDouble STEP_TIME ∧ roundDouble STEP_TIME < 1 / 60 := by
  rw [roundDouble_STEP_TIME]
  constructor <;> norm_num

/-- Five multiples of `1 / 1024` that are doubles. -/
theorem roundDouble_grid (n : ℕ) (hn : n ≤ 4) :
    roundDouble ((2 + 17 * (n : ℚ)) / 1024) = (2 + 17 * (n : ℚ)) / 1024 := by
  interval_cases n
  · rw [roundDouble_eval _ (-9) 4503599627370496 (by norm_num) (by norm_num) (by norm_num)
      (by norm_num [abs_lt])]
    norm_num
  · rw [roundDouble_eval _ (-6) 5348024557502464 (by norm_num) (by norm_num) (by norm_num)
      (by norm_num [abs_lt])]
    norm_num
  · rw [roundDouble_eval _ (-5) 5066549580791808 (by norm_num) (by norm_num) (by norm_num)
      (by norm_num [abs_lt])]
    norm_num
  · rw [roundDouble_eval _ (-5) 7459086882832384 (by norm_num) (by norm_num) (by norm_num)
      (by norm_num [abs_lt])]
    norm_num
  · rw [roundDouble_eval _ (-4) 4925812092436480 (by norm_num) (by norm_num) (by norm_num)
      (by norm_num [abs_lt])]
    norm_num

/-- In double arithmetic the loop returns within `n` iterations from an
accumulator of at most `(2 + 17 n) / 1024`, for `n` up to 4. -/
theorem stepLoop_double_bounded (keys : Keys) (n : ℕ) (hn : n ≤ 4) (fuel : ℕ) (hf : n ≤ fuel)
    (st : Stepper) (h0 : 0 ≤ st.accumulator)
    (hB : st.accumulator ≤ (2 + 17 * (n : ℚ)) / 1024) :
    ∃ (st2 : Stepper) (k : ℕ), k ≤ n ∧ stepLoop roundDouble keys fuel st = some st2 ∧
      st2.updateCalls = st.updateCalls + k ∧
      st2.state = (updatePhysics keys (roundDouble STEP_TIME))^[k] st.state ∧
      0 ≤ st2.accumulator ∧ st2.accumulator < roundDouble STEP_TIME := by
  obtain ⟨hS1, hS2⟩ := roundDouble_STEP_TIME_bounds
  induction n generalizing fuel st with
  | zero =>
    have hlt : st.accumulator < roundDouble STEP_TIME := by
      norm_num at hB
      linarith
    exact ⟨st, 0, le_rfl, stepLoop_of_lt _ _ _ _ hlt, rfl, rfl, h0, hlt⟩
  | succ n ih =>
    by_cases hc : st.accumulator ≥ roundDouble STEP_TIME
    · obtain ⟨f, rfl⟩ : ∃ f, fuel = f + 1 := ⟨fuel - 1, by omega⟩
      have hsub0 : 0 ≤ st.accumulator - roundDouble STEP_TIME := by linarith
      have hsub1 : st.accumulator - roundDouble STEP_TIME ≤ (2 + 17 * (n : ℚ)) / 1024 := by
        push_cast at hB
        linarith
      have hacc0 := roundDouble_nonneg hsub0
      have hacc1 := roundDouble_mono hsub0 hsub1
      rw [roundDouble_grid n (by omega)] at hacc1
      obtain ⟨st2, k, hk, e0, e1, e2, e3, e4⟩ := ih (by omega) f (by omega)
        { state := updatePhysics keys (roundDouble STEP_TIME) st.state
          accumulator := roundDouble (st.accumulator - roundDouble STEP_TIME)
          updateCalls := st.updateCalls + 1 } hacc0 hacc1
      refine ⟨st2, k + 1, by omega, ?_, ?_, ?_, e3, e4⟩
      · rw [stepLoop_succ_of_ge _ _ _ _ hc]
        exact e0
      · rw [e1]
        simp only
        omega
      · rw [e2, Function.iterate_succ_apply]
    · have hlt := not_le.mp hc
      exact ⟨st, 0, Nat.zero_le _, stepLoop_of_lt _ _ _ _ hlt, rfl, rfl, h0, hlt⟩

/-- In double arithmetic, a frame of at most `13 / 256` from an accumulator
below `1 / 60` returns after at most 4 updates. -/
theorem stepSimulation_double (keys : Keys) (fuel : ℕ) (hf : 4 ≤ fuel) (delta : ℚ)
    (st : Stepper) (h0 : 0 ≤ st.accumulator) (h1 : st.accumulator < 1 / 60)
    (hd0 : 0 ≤ delta) (hd1 : delta ≤ 13 / 256) :
    ∃ (st2 : Stepper) (k : ℕ), k ≤ 4 ∧ stepSimulation roundDouble keys fuel delta st = some st2 ∧
      st2.updateCalls = st.updateCalls + k ∧
      st2.state = (updatePhysics keys (roundDouble STEP_TIME))^[k] st.state ∧
      0 ≤ st2.accumulator ∧ st2.accumulator < roundDouble STEP_TIME := by
  have hsum0 : 0 ≤ st.accumulator + delta := by linarith
  have hsum1 : st.accumulator + delta ≤ (2 + 17 * ((4 : ℕ) : ℚ)) / 1024 := by
    norm_num
    linarith
  have hacc0 := roundDouble_nonneg hsum0
  have hacc1 := roundDouble_mono hsum0 hsum1
  rw [roundDouble_grid 4 le_rfl] at hacc1
  exact stepLoop_double_bounded keys 4 le_rfl fuel hf
    { st with accumulator := roundDouble (st.accumulator + delta) } hacc0 hacc1

theorem runDeltas_double (keys : Keys) (fuel : ℕ) (hf : 4 ≤ fuel) (deltas : List ℚ)
    (hd : ∀ d ∈ deltas, 0 ≤ d ∧ d ≤ 5 / 100)
    (st : Stepper) (h0 : 0 ≤ st.accumulator) (h1 : st.accumulator < 1 / 60) :
    ∃ (st2 : Stepper) (k : ℕ), k ≤ 4 * deltas.length ∧
      runDeltas roundDouble keys fuel deltas st = some st2 ∧
      st2.updateCalls = st.updateCalls + k ∧
      st2.state = (updatePhysics keys (roundDouble STEP_TIME))^[k] st.state ∧
      0 ≤ st2.accumulator ∧ st2.accumulator < 1 / 60 := by
  induction deltas generalizing st with
  | nil => exact ⟨st, 0, le_rfl, rfl, rfl, rfl, h0, h1⟩
  | cons d rest ih =>
    obtain ⟨hd0, hd1⟩ := hd d (List.mem_cons_self _ _)
    have hrest : ∀ e ∈ rest, 0 ≤ e ∧ e ≤ 5 / 100 := fun e he => hd e (List.mem_cons_of_mem _ he)
    obtain ⟨st1, k1, hk1, e0, e1, e2, e3, e4⟩ :=
      stepSimulation_double keys fuel hf d st h0 h1 hd0 (by linarith)
    obtain ⟨st2, k2, hk2, f0, f1, f2, f3, f4⟩ :=
      ih hrest st1 e3 (lt_trans e4 roundDouble_STEP_TIME_bounds.2)
    refine ⟨st2, k1 + k2, ?_, ?_, ?_, ?_, f3, f4⟩
    · simp only [List.length_cons]
      omega
    · show (stepSimulation roundDouble keys fuel d st).bind (runDeltas roundDouble keys fuel rest)
        = some st2
      rw [e0, Option.some_bind, f0]
    · rw [f1, e1]
      omega
    · rw [f2, e2, ← Function.iterate_add_apply, Nat.add_comm]

/-! ### Three runs in double arithmetic -/

/-- A frame in double arithmetic whose rounded sum stays below the step makes
no update. -/
theorem stepSimulation_double_idle (keys : Keys) (fuel : ℕ) (delta : ℚ) (st : Stepper) (v : ℚ)
    (hv : roundDouble (st.accumulator + delta) = v) (hlt : v < roundDouble STEP_TIME) :
    stepSimulation roundDouble keys fuel delta st = some { st with accumulator := v } := by
  unfold stepSimulation
  rw [hv]
  exact stepLoop_of_lt _ _ _ _ hlt

/-- A frame in double arithmetic whose rounded sum reaches the step once. -/
theorem stepSimulation_double_once (keys : Keys) (fuel : ℕ) (delta : ℚ) (st : Stepper)
    (v w : ℚ) (hv : roundDouble (st.accumulator + delta) = v)
    (hge : v ≥ roundDouble STEP_TIME) (hw : roundDouble (v - roundDouble STEP_TIME) = w)
    (hlt : w < roundDouble STEP_TIME) :
    stepSimulation roundDouble keys (fuel + 1) delta st =
      some
        { state := updatePhysics keys (roundDouble STEP_TIME) st.state
          accumulator := w
          updateCalls := st.updateCalls + 1 } := by
  unfold stepSimulation
  rw [hv, stepLoop_succ_of_ge _ _ _ _ hge]
  simp only
  rw [hw]
  exact stepLoop_of_lt _ _ _ _ hlt

theorem threeDeltas_run :
    runDeltas roundDouble noKeys 4 threeDeltas
        { state := startState, accumulator := 0, updateCalls := 0 } =
      some
        { state := updatePhysics noKeys (roundDouble STEP_TIME) startState
          accumulator := 0
          updateCalls := 1 } := by
  have hS := roundDouble_STEP_TIME
  have r1 : roundDouble (0 + 5 / 2 ^ 62) = 5 / 2 ^ 62 := by
    rw [roundDouble_eval _ (-60) 5629499534213120 (by norm_num) (by norm_num) (by norm_num)
      (by norm_num [abs_lt])]
    norm_num
  have r2 : roundDouble (5 / 2 ^ 62 + 4503599627370495 / 2 ^ 58) =
      9007199254740991 / 2 ^ 59 := by
    rw [roundDouble_eval _ (-7) 9007199254740991 (by norm_num) (by norm_num) (by norm_num)
      (by norm_num [abs_lt])]
    norm_num
  have r3 : roundDouble (9007199254740991 / 2 ^ 59 + 4803839602528529 / 2 ^ 62) =
      4803839602528529 / 2 ^ 58 := by
    rw [roundDouble_eval _ (-6) 4803839602528529 (by norm_num) (by norm_num) (by norm_num)
      (by norm_num [abs_lt])]
    norm_num
  have r4 : roundDouble (4803839602528529 / 2 ^ 58 - roundDouble STEP_TIME) = 0 := by
    rw [hS, sub_self, roundDouble_zero]
  have s1 := stepSimulation_double_idle noKeys 4 (5 / 2 ^ 62)
    { state := startState, accumulator := 0, updateCalls := 0 } _ r1 (by rw [hS]; norm_num)
  have s2 := stepSimulation_double_idle noKeys 4 (4503599627370495 / 2 ^ 58)
    { state := startState, accumulator := 5 / 2 ^ 62, updateCalls := 0 } _ r2
    (by rw [hS]; norm_num)
  have s3 := stepSimulation_double_once noKeys 3 (4803839602528529 / 2 ^ 62)
    { state := startState, accumulator := 9007199254740991 / 2 ^ 59, updateCalls := 0 } _ _ r3
    (by rw [hS]) r4 (by rw [hS]; norm_num)
  simp only [threeDeltas, runDeltas, s1, s2, s3, Option.some_bind]

theorem twoDeltas_run :
    runDeltas roundDouble noKeys 4 twoDeltas
        { state := startState, accumulator := 0, updateCalls := 0 } =
      some { state := startState, accumulator := 4803839602528528 / 2 ^ 58, updateCalls := 0 } := by
  have hS := roundDouble_STEP_TIME
  have r1 : roundDouble (0 + 4803839602528528 / 2 ^ 58) = 4803839602528528 / 2 ^ 58 := by
    rw [roundDouble_eval _ (-6) 4803839602528528 (by norm_num) (by norm_num) (by norm_num)
      (by norm_num [abs_lt])]
    norm_num
  have r2 : roundDouble (4803839602528528 / 2 ^ 58 + 3 / 2 ^ 61) =
      4803839602528528 / 2 ^ 58 := by
    rw [roundDouble_eval _ (-6) 4803839602528528 (by norm_num) (by norm_num) (by norm_num)
      (by norm_num [abs_lt])]
    norm_num
  have s1 := stepSimulation_double_idle noKeys 4 (4803839602528528 / 2 ^ 58)
    { state := startState, accumulator := 0, updateCalls := 0 } _ r1 (by rw [hS]; norm_num)
  have s2 := stepSimulation_double_idle noKeys 4 (3 / 2 ^ 61)
    { state := startState, accumulator := 4803839602528528 / 2 ^ 58, updateCalls := 0 } _ r2
    (by rw [hS]; norm_num)
  simp only [twoDeltas, runDeltas, s1, s2, Option.some_bind]

theorem nearStep_frame :
    loop roundDouble rightKeys 960 4 (3 / 10) nearStepStepper =
      some
        { state := drawScene 960
            ((updatePhysics rightKeys (roundDouble STEP_TIME))^[4] nearStepStepper.state)
          accumulator := 2 / 2 ^ 58
          updateCalls := 4 } := by
  have hS := roundDouble_STEP_TIME
  have hD := roundDouble_twentieth
  have hc : clamp (3 / 10) 0 (roundDouble (5 / 100)) = 7205759403792794 / 2 ^ 57 := by
    rw [hD]
    norm_num [clamp]
  have r0 : roundDouble (4803839602528528 / 2 ^ 58 + 7205759403792794 / 2 ^ 57) =
      19215358410114116 / 2 ^ 58 := by
    rw [roundDouble_eval _ (-4) 4803839602528529 (by norm_num) (by norm_num) (by norm_num)
      (by norm_num [abs_lt])]
    norm_num
  have r1 : roundDouble (19215358410114116 / 2 ^ 58 - roundDouble STEP_TIME) =
      14411518807585588 / 2 ^ 58 := by
    rw [hS, roundDouble_eval_tie _ (-5) 7205759403792793 7205759403792794 (by norm_num)
      (by norm_num) (by norm_num) (by norm_num) (Or.inr ⟨by norm_num, by norm_num⟩)]
    norm_num
  have r2 : roundDouble (14411518807585588 / 2 ^ 58 - roundDouble STEP_TIME) =
      9607679205057060 / 2 ^ 58 := by
    rw [hS, roundDouble_eval_tie _ (-5) 4803839602528529 4803839602528530 (by norm_num)
      (by norm_num) (by norm_num) (by norm_num) (Or.inr ⟨by norm_num, by norm_num⟩)]
    norm_num
  have r3 : roundDouble (9607679205057060 / 2 ^ 58 - roundDouble STEP_TIME) =
      4803839602528531 / 2 ^ 58 := by
    rw [hS, roundDouble_eval _ (-6) 4803839602528531 (by norm_num) (by norm_num) (by norm_num)
      (by norm_num [abs_lt])]
    norm_num
  have r4 : roundDouble (4803839602528531 / 2 ^ 58 - roundDouble STEP_TIME) = 2 / 2 ^ 58 := by
    rw [hS, roundDouble_eval _ (-57) 4503599627370496 (by norm_num) (by norm_num) (by norm_num)
      (by norm_num [abs_lt])]
    norm_num
  unfold loop stepSimulation
  simp only [hc, nearStepStepper]
  rw [r0, stepLoop_succ_of_ge _ _ _ _ (by rw [hS]; norm_num)]
  simp only
  rw [r1, stepLoop_succ_of_ge _ _ _ _ (by rw [hS]; norm_num)]
  simp only
  rw [r2, stepLoop_succ_of_ge _ _ _ _ (by rw [hS]; norm_num)]
  simp only
  rw [r3, stepLoop_succ_of_ge _ _ _ _ (by rw [hS]; norm_num)]
  simp only
  rw [r4, stepLoop_of_lt _ _ _ _ (by rw [hS]; norm_num)]
  rfl

/-! ### Frame-rate independence and the frame bound -/

/-- C7, counterexample to the claim as stated: `twoDeltas` and `threeDeltas`
are sequences of frame deltas in `[0, 0.05]`, each delta a double, with the
same sum `T`, fed to `stepSimulation` from the accumulator 0 under the same
keys. In the double arithmetic of the program the first makes no call of
`updatePhysics` and leaves the accumulator `4803839602528528 / 2 ^ 58`, the
second rounds its sums up to the double nearest to `1 / 60`, makes one call and
leaves the accumulator 0: the final simulation states, accumulators and numbers
of calls differ, and one call is not `floor (T * 60) = 0`. -/
theorem stepSimulation_frame_rate_counterexample :
    twoDeltas.sum = threeDeltas.sum ∧
      (∀ d ∈ twoDeltas, 0 ≤ d ∧ d ≤ 5 / 100) ∧ (∀ d ∈ threeDeltas, 0 ≤ d ∧ d ≤ 5 / 100) ∧
      (∀ d ∈ twoDeltas, roundDouble d = d) ∧ (∀ d ∈ threeDeltas, roundDouble d = d) ∧
      runDeltas roundDouble noKeys 4 twoDeltas
          { state := startState, accumulator := 0, updateCalls := 0 } =
        some
          { state := startState, accumulator := 4803839602528528 / 2 ^ 58, updateCalls := 0 } ∧
      runDeltas roundDouble noKeys 4 threeDeltas
          { state := startState, accumulator := 0, updateCalls := 0 } =
        some
          { state := updatePhysics noKeys (roundDouble STEP_TIME) startState
            accumulator := 0
            updateCalls := 1 } ∧
      updatePhysics noKeys (roundDouble STEP_TIME) startState ≠ startState ∧
      runDeltas roundDouble noKeys 4 twoDeltas
          { state := startState, accumulator := 0, updateCalls := 0 } ≠
        runDeltas roundDouble noKeys 4 threeDeltas
          { state := startState, accumulator := 0, updateCalls := 0 } ∧
      ⌊threeDeltas.sum * 60⌋₊ = 0 := by
  have hne : updatePhysics noKeys (roundDouble STEP_TIME) startState ≠ startState := by
    intro h
    have he := congrArg SimState.elapsed h
    rw [updatePhysics_playing _ _ _ rfl, roundDouble_STEP_TIME] at he
    norm_num [startState] at he
  refine ⟨by norm_num [twoDeltas, threeDeltas], ?_, ?_, ?_, ?_, twoDeltas_run, threeDeltas_run,
    hne, ?_, ?_⟩
  · intro d hd
    simp only [twoDeltas, List.mem_cons, List.mem_singleton, List.not_mem_nil, or_false] at hd
    rcases hd with rfl | rfl <;> norm_num
  · intro d hd
    simp only [threeDeltas, List.mem_cons, List.mem_singleton, List.not_mem_nil, or_false] at hd
    rcases hd with rfl | rfl | rfl <;> norm_num
  · intro d hd
    simp only [twoDeltas, List.mem_cons, List.mem_singleton, List.not_mem_nil, or_false] at hd
    rcases hd with rfl | rfl
    · rw [roundDouble_eval _ (-6) 4803839602528528 (by norm_num) (by norm_num) (by norm_num)
        (by norm_num [abs_lt])]
      norm_num
    · rw [roundDouble_eval _ (-60) 6755399441055744 (by norm_num) (by norm_num) (by norm_num)
        (by norm_num [abs_lt])]
      norm_num
  · intro d hd
    simp only [threeDeltas, List.mem_cons, List.mem_singleton, List.not_mem_nil, or_false] at hd
    rcases hd with rfl | rfl | rfl
    · rw [roundDouble_eval _ (-60) 5629499534213120 (by norm_num) (by norm_num) (by norm_num)
        (by norm_num [abs_lt])]
      norm_num
    · rw [roundDouble_eval _ (-7) 9007199254740990 (by norm_num) (by norm_num) (by norm_num)
        (by norm_num [abs_lt])]
      norm_num
    · rw [roundDouble_eval _ (-10) 4803839602528529 (by norm_num) (by norm_num) (by norm_num)
        (by norm_num [abs_lt])]
      norm_num
  · rw [twoDeltas_run, threeDeltas_run]
    intro h
    have h2 := congrArg Stepper.updateCalls (Option.some.inj h)
    exact absurd h2 (by norm_num)
  · rw [Nat.floor_eq_zero]
    norm_num [threeDeltas]

/-- C7, as amended: under a fixed set of held keys, from the accumulator 0 and
for two sequences of frame deltas in `[0, 0.05]` with the same sum `T`:
in exact arithmetic, feeding either sequence to `stepSimulation` one delta at a
time yields the same final simulation state and the same final accumulator,
after `floor (T * 60)` calls of `updatePhysics`; in the double arithmetic of
the program each run returns, with its accumulator in `[0, 1/60)` and its
simulation state equal to the initial state after as many updates as the run
has made calls, so that two runs with the same number of calls end in the same
simulation state. -/
theorem stepSimulation_frame_rate_independent (keys : Keys) (s : SimState) (fuel : ℕ)
    (hf : 4 ≤ fuel) (deltas1 deltas2 : List ℚ)
    (h1 : ∀ d ∈ deltas1, 0 ≤ d ∧ d ≤ 5 / 100) (h2 : ∀ d ∈ deltas2, 0 ≤ d ∧ d ≤ 5 / 100)
    (hsum : deltas1.sum = deltas2.sum) :
    (runDeltas noRounding keys fuel deltas1 { state := s, accumulator := 0, updateCalls := 0 } =
        runDeltas noRounding keys fuel deltas2
          { state := s, accumulator := 0, updateCalls := 0 } ∧
      runDeltas noRounding keys fuel deltas1 { state := s, accumulator := 0, updateCalls := 0 } =
        some
          { state := (updatePhysics keys STEP_TIME)^[⌊deltas1.sum * 60⌋₊] s
            accumulator := deltas1.sum - (⌊deltas1.sum * 60⌋₊ : ℕ) / 60
            updateCalls := ⌊deltas1.sum * 60⌋₊ }) ∧
      ∃ st1 st2 : Stepper,
        runDeltas roundDouble keys fuel deltas1
            { state := s, accumulator := 0, updateCalls := 0 } = some st1 ∧
          runDeltas roundDouble keys fuel deltas2
            { state := s, accumulator := 0, updateCalls := 0 } = some st2 ∧
          st1.state = (updatePhysics keys (roundDouble STEP_TIME))^[st1.updateCalls] s ∧
          st2.state = (updatePhysics keys (roundDouble STEP_TIME))^[st2.updateCalls] s ∧
          (0 ≤ st1.accumulator ∧ st1.accumulator < 1 / 60) ∧
          (0 ≤ st2.accumulator ∧ st2.accumulator < 1 / 60) ∧
          (st1.updateCalls = st2.updateCalls → st1.state = st2.state) := by
  constructor
  · have e1 := runDeltas_noRounding keys fuel (by omega) deltas1 h1
      { state := s, accumulator := 0, updateCalls := 0 } le_rfl (by norm_num)
    have e2 := runDeltas_noRounding keys fuel (by omega) deltas2 h2
      { state := s, accumulator := 0, updateCalls := 0 } le_rfl (by norm_num)
    rw [e1, e2, hsum]
    simp
  · obtain ⟨st1, k1, _, a0, a1, a2, a3, a4⟩ := runDeltas_double keys fuel hf deltas1 h1
      { state := s, accumulator := 0, updateCalls := 0 } le_rfl (by norm_num)
    obtain ⟨st2, k2, _, b0, b1, b2, b3, b4⟩ := runDeltas_double keys fuel hf deltas2 h2
      { state := s, accumulator := 0, updateCalls := 0 } le_rfl (by norm_num)
    have c1 : st1.updateCalls = k1 := by rw [a1]; simp
    have c2 : st2.updateCalls = k2 := by rw [b1]; simp
    refine ⟨st1, st2, a0, b0, by rw [c1]; exact a2, by rw [c2]; exact b2, ⟨a3, a4⟩, ⟨b3, b4⟩, ?_⟩
    intro hk
    rw [a2, b2, ← c1, ← c2, hk]

theorem stepSimulation_frame_rate_independent_witness :
    fineDeltas.sum = coarseDeltas.sum ∧
      runDeltas noRounding rightKeys 4 fineDeltas
          { state := startState, accumulator := 0, updateCalls := 0 } =
        runDeltas noRounding rightKeys 4 coarseDeltas
          { state := startState, accumulator := 0, updateCalls := 0 } :=
  ⟨by norm_num [fineDeltas, coarseDeltas],
   (stepSimulation_frame_rate_independent rightKeys startState 4 le_rfl fineDeltas coarseDeltas
      (by
        intro d hd
        simp only [fineDeltas, List.mem_cons, List.mem_singleton, List.not_mem_nil,
          or_false, or_self] at hd
        subst hd
        norm_num)
      (by
        intro d hd
        simp only [coarseDeltas, List.mem_singleton] at hd
        subst hd
        norm_num)
      (by norm_num [fineDeltas, coarseDeltas])).1.1⟩

/-- C10, counterexample to the claim as stated: the accumulator of
`nearStepStepper` is the double `4803839602528528 / 2 ^ 58`, in `[0, 1/60)`,
and the raw frame delta is 0.3, so that `safeDelta` is the constant 0.05. In
the double arithmetic of the program the frame makes 4 calls of
`updatePhysics` and leaves the accumulator `2 ^ -57`, while
`floor ((a + safeDelta) * 60)` is 3, for the double 0.05 as for `1 / 20`. -/
theorem loop_frame_counterexample :
    (0 ≤ nearStepStepper.accumulator ∧ nearStepStepper.accumulator < 1 / 60) ∧
      loop roundDouble rightKeys 960 4 (3 / 10) nearStepStepper =
        some
          { state := drawScene 960
              ((updatePhysics rightKeys (roundDouble STEP_TIME))^[4] nearStepStepper.state)
            accumulator := 2 / 2 ^ 58
            updateCalls := 4 } ∧
      ⌊(nearStepStepper.accumulator + clamp (3 / 10) 0 (roundDouble (5 / 100))) * 60⌋₊ = 3 ∧
      ⌊(nearStepStepper.accumulator + clamp (3 / 10) 0 (5 / 100)) * 60⌋₊ = 3 ∧
      ¬ (4 : ℕ) ≤ 3 := by
  refine ⟨by norm_num [nearStepStepper], nearStep_frame, ?_, ?_, by norm_num⟩
  · rw [roundDouble_twentieth, Nat.floor_eq_iff (by norm_num [nearStepStepper, clamp])]
    norm_num [nearStepStepper, clamp]
  · rw [Nat.floor_eq_iff (by norm_num [nearStepStepper, clamp])]
    norm_num [nearStepStepper, clamp]

/-- C10, as amended: for every accumulator value `a` with `0 <= a < 1/60` and
every raw frame delta `d`, one frame of `loop` (`safeDelta = clamp d 0 0.05`,
then `stepSimulation safeDelta`) returns. In the double arithmetic of the
program it calls `updatePhysics` `k` times with `k <= 4` and leaves the
accumulator in `[0, 1/60)`, below the double nearest to `1 / 60`. In exact
arithmetic `k = floor ((a + safeDelta) * 60)`, `k <= 3`, and the accumulator
left is `a + safeDelta - k / 60`, in `[0, 1/60)`. In both, the simulation state
is the initial one after `k` updates, then the camera update. -/
theorem loop_frame_bounded (keys : Keys) (canvasWidth d : ℚ) (fuel : ℕ) (hf : 4 ≤ fuel)
    (st : Stepper) (h0 : 0 ≤ st.accumulator) (h1 : st.accumulator < 1 / 60) :
    (∃ (st2 : Stepper) (k : ℕ), k ≤ 4 ∧
        loop roundDouble keys canvasWidth fuel d st = some st2 ∧
        st2.updateCalls = st.updateCalls + k ∧
        st2.state =
          drawScene canvasWidth ((updatePhysics keys (roundDouble STEP_TIME))^[k] st.state) ∧
        0 ≤ st2.accumulator ∧ st2.accumulator < roundDouble STEP_TIME ∧
        st2.accumulator < 1 / 60) ∧
      loop noRounding keys canvasWidth fuel d st =
        some
          { state := drawScene canvasWidth
              ((updatePhysics keys STEP_TIME)^[⌊(st.accumulator + clamp d 0 (5 / 100)) * 60⌋₊]
                st.state)
            accumulator := st.accumulator + clamp d 0 (5 / 100) -
              (⌊(st.accumulator + clamp d 0 (5 / 100)) * 60⌋₊ : ℕ) / 60
            updateCalls := st.updateCalls + ⌊(st.accumulator + clamp d 0 (5 / 100)) * 60⌋₊ } ∧
      ⌊(st.accumulator + clamp d 0 (5 / 100)) * 60⌋₊ ≤ 3 ∧
      0 ≤ st.accumulator + clamp d 0 (5 / 100) -
          (⌊(st.accumulator + clamp d 0 (5 / 100)) * 60⌋₊ : ℕ) / 60 ∧
      st.accumulator + clamp d 0 (5 / 100) -
          (⌊(st.accumulator + clamp d 0 (5 / 100)) * 60⌋₊ : ℕ) / 60 < 1 / 60 := by
  have hDpos : (0 : ℚ) ≤ roundDouble (5 / 100) := by
    rw [roundDouble_twentieth]
    norm_num
  have hDle : roundDouble (5 / 100) ≤ 13 / 256 := by
    rw [roundDouble_twentieth]
    norm_num
  have hcd := clamp_bounds d hDpos
  have hc := clamp_bounds d (show (0 : ℚ) ≤ 5 / 100 by norm_num)
  have hb := remainder_bounds (st.accumulator + clamp d 0 (5 / 100)) (by linarith [hc.1])
  have h3 := frame_floor_le_three st.accumulator (clamp d 0 (5 / 100)) h0 h1 hc.1
    (by linarith [hc.2])
  refine ⟨?_, ?_, h3, hb.1, hb.2⟩
  · obtain ⟨st2, k, hk, e0, e1, e2, e3, e4⟩ := stepSimulation_double keys fuel hf
      (clamp d 0 (roundDouble (5 / 100))) st h0 h1 hcd.1 (by linarith [hcd.2])
    refine ⟨{ st2 with state := drawScene canvasWidth st2.state }, k, hk, ?_, e1, ?_, e3, e4,
      lt_trans e4 roundDouble_STEP_TIME_bounds.2⟩
    · unfold loop
      simp only [e0, Option.map_some']
    · simp only [e2]
  · unfold loop
    simp only [noRounding]
    have e := stepSimulation_noRounding keys fuel (clamp d 0 (5 / 100)) st (by omega)
    rw [e]
    rfl

theorem loop_frame_bounded_witness :
    (0 ≤ midStepper.accumulator ∧ midStepper.accumulator < 1 / 60) ∧
      ∃ (st2 : Stepper) (k : ℕ), k ≤ 4 ∧
        loop roundDouble rightKeys 960 4 (3 / 10) midStepper = some st2 ∧
        st2.updateCalls = midStepper.updateCalls + k ∧
        st2.state =
          drawScene 960 ((updatePhysics rightKeys (roundDouble STEP_TIME))^[k] midStepper.state) ∧
        0 ≤ st2.accumulator ∧ st2.accumulator < roundDouble STEP_TIME ∧
        st2.accumulator < 1 / 60 :=
  ⟨by norm_num [midStepper],
   (loop_frame_bounded rightKeys 960 (3 / 10) 4 le_rfl midStepper (by norm_num [midStepper])
      (by norm_num [midStepper])).1⟩

/-! ## The jump and the idle friction -/

/-- The jump branch of lines 174-180. -/
theorem settle_jump (keys : Keys) (step : ℚ) (ch : Character)
    (hj : keys.ArrowUp = true ∨ keys.Space = true) (hg : ch.onGround = true) :
    (settle keys step ch).velocity.y = -1050 ∧ (settle keys step ch).onGround = false ∧
      (settle keys step ch).springCompression = 1 := by
  unfold settle
  rcases hj with h | h <;> simp [h, hg]

/-- On the shipped level, a character at rest on a platform top whose foot is
within the platform span after the integration of a 1/60 step is marked
grounded by the collision resolver. -/
theorem resolveCollisions_rest_onGround (keys : Keys) (ch : Character) (p : Platform)
    (hp : p ∈ LEVEL.platforms) (hy : ch.position.y = p.y) (hv : ch.velocity.y = 0)
    (hx1 : p.x ≤ (integrate keys STEP_TIME ch).position.x)
    (hx2 : (integrate keys STEP_TIME ch).position.x ≤ p.x + p.width) :
    (resolveCollisions (integrate keys STEP_TIME ch)).onGround = true := by
  have hh := platform_height_ge p hp
  have ey : (integrate keys STEP_TIME ch).position.y = p.y + 11 / 18 := by
    show ch.position.y + (ch.velocity.y + GRAVITY * STEP_TIME) * STEP_TIME = p.y + 11 / 18
    rw [hy, hv]
    norm_num [GRAVITY, STEP_TIME]
  have ev : (integrate keys STEP_TIME ch).velocity.y = 110 / 3 := by
    show ch.velocity.y + GRAVITY * STEP_TIME = 110 / 3
    rw [hv]
    norm_num [GRAVITY, STEP_TIME]
  rw [resolveCollisions_land p hp _ hx1 hx2 (by rw [ey]; linarith) (by rw [ey]; linarith)
    (by rw [ev]; norm_num)]

/-- C8, as amended: with ArrowUp or Space held, from a playing state, if the
collision resolver marks the character grounded during the tick, then after
the call of `updatePhysics` `velocity.y = -1050`, `onGround = false` and
`springCompression = 1`; in particular this holds, for the step 1/60, for a
character resting on a platform top of the shipped level (`position.y` equal
to the platform y, `velocity.y = 0`) whose foot x after the horizontal
integration of the tick lies within the platform span. -/
theorem updatePhysics_jump (keys : Keys) (s : SimState) (h : s.status = Status.playing)
    (hj : keys.ArrowUp = true ∨ keys.Space = true) :
    (∀ step : ℚ, (resolveCollisions (integrate keys step s.character)).onGround = true →
        (updatePhysics keys step s).character.velocity.y = -1050 ∧
          (updatePhysics keys step s).character.onGround = false ∧
          (updatePhysics keys step s).character.springCompression = 1) ∧
      ∀ p ∈ LEVEL.platforms, s.character.position.y = p.y → s.character.velocity.y = 0 →
        p.x ≤ (integrate keys STEP_TIME s.character).position.x →
        (integrate keys STEP_TIME s.character).position.x ≤ p.x + p.width →
        (updatePhysics keys STEP_TIME s).character.velocity.y = -1050 ∧
          (updatePhysics keys STEP_TIME s).character.onGround = false ∧
          (updatePhysics keys STEP_TIME s).character.springCompression = 1 := by
  have main : ∀ step : ℚ,
      (resolveCollisions (integrate keys step s.character)).onGround = true →
        (updatePhysics keys step s).character.velocity.y = -1050 ∧
          (updatePhysics keys step s).character.onGround = false ∧
          (updatePhysics keys step s).character.springCompression = 1 := by
    intro step hg
    rw [updatePhysics_playing keys step s h]
    exact settle_jump keys step _ hj (by rw [resolveCeiling_onGround]; exact hg)
  refine ⟨main, ?_⟩
  intro p hp hy hv hx1 hx2
  exact main STEP_TIME (resolveCollisions_rest_onGround keys s.character p hp hy hv hx1 hx2)

theorem updatePhysics_jump_witness :
    restOnFirst.status = Status.playing ∧ jumpRightKeys.ArrowUp = true ∧
      (updatePhysics jumpRightKeys STEP_TIME restOnFirst).character.velocity.y = -1050 ∧
      (updatePhysics jumpRightKeys STEP_TIME restOnFirst).character.onGround = false ∧
      (updatePhysics jumpRightKeys STEP_TIME restOnFirst).character.springCompression = 1 :=
  ⟨rfl, rfl,
   (updatePhysics_jump jumpRightKeys restOnFirst rfl (Or.inl rfl)).2
     { x := 0, y := 470, width := 620, height := 250, bounce := 28 / 100 }
     (by simp [LEVEL]) (by norm_num [restOnFirst]) (by norm_num [restOnFirst])
     (by norm_num [restOnFirst, jumpRightKeys, integrate, clamp, STEP_TIME, MAX_VELOCITY_X, LEVEL])
     (by norm_num [restOnFirst, jumpRightKeys, integrate, clamp, STEP_TIME, MAX_VELOCITY_X, LEVEL])⟩

/-- C8, counterexample to the claim as stated: the playing character
`restOnEdge` rests on the top of the second platform (`position.y` equal to
the platform y, `velocity.y = 0`, foot x within the platform span, at its right
end), ArrowUp is held together with ArrowRight, and after the call of
`updatePhysics` the character has not jumped: the horizontal integration has
carried the foot past the platform end before the collision resolver runs. -/
theorem updatePhysics_jump_edge_counterexample :
    restOnEdge.status = Status.playing ∧ jumpRightKeys.ArrowUp = true ∧
      (∃ p ∈ LEVEL.platforms, restOnEdge.character.position.y = p.y ∧
        p.x ≤ restOnEdge.character.position.x ∧
        restOnEdge.character.position.x ≤ p.x + p.width) ∧
      restOnEdge.character.velocity.y = 0 ∧
      (updatePhysics jumpRightKeys STEP_TIME restOnEdge).status = Status.playing ∧
      (updatePhysics jumpRightKeys STEP_TIME restOnEdge).character.velocity.y = 110 / 3 ∧
      (updatePhysics jumpRightKeys STEP_TIME restOnEdge).character.velocity.y ≠ -1050 ∧
      (updatePhysics jumpRightKeys STEP_TIME restOnEdge).character.springCompression ≠ 1 := by
  refine ⟨rfl, rfl,
    ⟨{ x := 700, y := 450, width := 280, height := 220, bounce := 32 / 100 }, by simp [LEVEL],
      by norm_num [restOnEdge], by norm_num [restOnEdge], by norm_num [restOnEdge]⟩,
    rfl, ?_⟩
  norm_num [updatePhysics, restOnEdge, jumpRightKeys, STEP_TIME, integrate, resolveCollisions,
    LEVEL, collidePlatform, getFootPosition, resolveCeiling, settle, clamp, MAX_VELOCITY_X,
    GRAVITY, POGO_LENGTH, BODY_RADIUS, HEAD_RADIUS, AIR_DRAG, resolveHazards, hazardContact,
    rectCircleIntersect, rectPointIntersect, triggerFail]

/-- The idle-friction factor 0.8 of line 144 is never applied: whatever the
grounded flag on entry, the horizontal velocity left by lines 133-147 is the
clamp of the velocity after the key input. -/
theorem integrate_velocity_x (keys : Keys) (step : ℚ) (ch : Character) :
    (integrate keys step ch).velocity.x =
      clamp
        (if keys.ArrowRight then
          (if keys.ArrowLeft then ch.velocity.x - 1500 * step else ch.velocity.x) + 1500 * step
        else (if keys.ArrowLeft then ch.velocity.x - 1500 * step else ch.velocity.x))
        (-MAX_VELOCITY_X) MAX_VELOCITY_X := by
  unfold integrate
  simp

/-- C9, evaluation at the failing input: the playing character
`slidingOnFirst` is on the ground (`onGround = true`) with `velocity.x = 100`,
no key is held, and it stays grounded during the tick; after the call
`velocity.x` is `clamp 100 (-420) 420 * 0.82 = 82`, not
`clamp (0.8 * 100) (-420) 420 * 0.82 = 65.6`: line 133 clears `onGround`
before line 143 reads it, so the idle friction of line 144 is not applied. -/
theorem updatePhysics_idle_friction_skipped :
    slidingOnFirst.status = Status.playing ∧ slidingOnFirst.character.onGround = true ∧
      slidingOnFirst.character.velocity.x = 100 ∧
      (updatePhysics noKeys STEP_TIME slidingOnFirst).character.onGround = true ∧
      (updatePhysics noKeys STEP_TIME slidingOnFirst).character.velocity.x = 82 ∧
      clamp (8 / 10 * 100) (-420) 420 * (82 / 100) = 328 / 5 ∧
      (updatePhysics noKeys STEP_TIME slidingOnFirst).character.velocity.x ≠
        clamp (8 / 10 * slidingOnFirst.character.velocity.x) (-420) 420 * (82 / 100) := by
  refine ⟨rfl, rfl, rfl, ?_⟩
  norm_num [updatePhysics, slidingOnFirst, noKeys, STEP_TIME, integrate, resolveCollisions,
    LEVEL, collidePlatform, getFootPosition, resolveCeiling, settle, clamp, MAX_VELOCITY_X,
    GRAVITY, POGO_LENGTH, BODY_RADIUS, HEAD_RADIUS, AIR_DRAG, resolveHazards, hazardContact,
    rectCircleIntersect, rectPointIntersect, triggerFail]

/-! ## Bounds on position and spring compression, the ceiling, reset and camera -/

theorem integrate_position_x_bounds (keys : Keys) (step : ℚ) (ch : Character) :
    0 ≤ (integrate keys step ch).position.x ∧ (integrate keys step ch).position.x ≤ 2360 := by
  have h : ∀ v : ℚ, 0 ≤ clamp v 0 (LEVEL.width - 40) ∧ clamp v 0 (LEVEL.width - 40) ≤ 2360 := by
    intro v
    have h0 := clamp_bounds v (show (0 : ℚ) ≤ LEVEL.width - 40 by norm_num [LEVEL])
    have e : LEVEL.width - 40 = 2360 := by norm_num [LEVEL]
    rw [e] at h0 ⊢
    exact h0
  unfold integrate
  exact h _

/-- C11: `LEVEL.width - 40` is 2360, and after one call of `updatePhysics` from a
playing state, with any held keys and any step, `position.x` lies in
`[0, 2360]`. -/
theorem updatePhysics_position_x_bounded (keys : Keys) (step : ℚ) (s : SimState)
    (h : s.status = Status.playing) :
    LEVEL.width - 40 = 2360 ∧
      0 ≤ (updatePhysics keys step s).character.position.x ∧
      (updatePhysics keys step s).character.position.x ≤ 2360 := by
  refine ⟨by norm_num [LEVEL], ?_⟩
  rw [updatePhysics_playing keys step s h]
  simp only
  rw [final_position_x, resolveCollisions_position_x]
  exact integrate_position_x_bounds keys step s.character

theorem settle_springCompression_bounds (keys : Keys) (step : ℚ) (ch : Character) :
    0 ≤ (settle keys step ch).springCompression ∧ (settle keys step ch).springCompression ≤ 1 := by
  have hc : ∀ v : ℚ, 0 ≤ clamp v 0 1 ∧ clamp v 0 1 ≤ 1 := fun v =>
    clamp_bounds v (show (0 : ℚ) ≤ 1 by norm_num)
  unfold settle
  simp only
  split_ifs <;> first | exact hc _ | norm_num

/-- C12: after one call of `updatePhysics` from a playing state, with any held
keys, any step and any value of `springCompression` before the call,
`springCompression` lies in `[0, 1]`. -/
theorem updatePhysics_springCompression_bounded (keys : Keys) (step : ℚ) (s : SimState)
    (h : s.status = Status.playing) :
    0 ≤ (updatePhysics keys step s).character.springCompression ∧
      (updatePhysics keys step s).character.springCompression ≤ 1 := by
  rw [updatePhysics_playing keys step s h]
  exact settle_springCompression_bounds keys step _

/-- C14: the head height is `position.y - 145` and the ceiling is 40. After
`resolveCeiling` the head height is at least 40. When the head height `h` was
below 40, `position.y` is increased by exactly `40 - h`, so that the head
height is exactly 40, an upward `velocity.y = v < 0` becomes `-0.2 * v`, a
non-negative `velocity.y` becomes 0, and the other fields are unchanged; when
`h >= 40` the character is unchanged. -/
theorem resolveCeiling_spec (ch : Character) :
    POGO_LENGTH * (9 / 10) + BODY_RADIUS + HEAD_RADIUS = 145 ∧ LEVEL.ceiling = 40 ∧
      (resolveCeiling ch).position.y - 145 ≥ 40 ∧
      (ch.position.y - 145 < 40 →
        (resolveCeiling ch).position.y = ch.position.y + (40 - (ch.position.y - 145)) ∧
          (resolveCeiling ch).position.y - 145 = 40 ∧
          (ch.velocity.y < 0 → (resolveCeiling ch).velocity.y = -(2 / 10) * ch.velocity.y) ∧
          (0 ≤ ch.velocity.y → (resolveCeiling ch).velocity.y = 0) ∧
          (resolveCeiling ch).position.x = ch.position.x ∧
          (resolveCeiling ch).velocity.x = ch.velocity.x ∧
          (resolveCeiling ch).rotation = ch.rotation ∧ (resolveCeiling ch).tilt = ch.tilt ∧
          (resolveCeiling ch).springCompression = ch.springCompression ∧
          (resolveCeiling ch).onGround = ch.onGround ∧
          (resolveCeiling ch).airborneTimer = ch.airborneTimer) ∧
      (ch.position.y - 145 ≥ 40 → resolveCeiling ch = ch) := by
  have e : ch.position.y - POGO_LENGTH * (9 / 10) - BODY_RADIUS - HEAD_RADIUS =
      ch.position.y - 145 := by
    norm_num [POGO_LENGTH, BODY_RADIUS, HEAD_RADIUS]
    ring
  have ec : LEVEL.ceiling = 40 := rfl
  refine ⟨by norm_num [POGO_LENGTH, BODY_RADIUS, HEAD_RADIUS], ec, ?_, ?_, ?_⟩
  · unfold resolveCeiling
    simp only [e, ec]
    split_ifs with hlt
    · simp only
      linarith
    · linarith
  · intro hlt
    unfold resolveCeiling
    simp only [e, ec, if_pos hlt]
    refine ⟨trivial, by ring, ?_, ?_, trivial, trivial, trivial, trivial, trivial, trivial, trivial⟩
    · intro hv
      rw [max_eq_right (by nlinarith)]
      ring
    · intro hv
      rw [max_eq_left (by nlinarith)]
  · intro hge
    unfold resolveCeiling
    simp only [e, ec, if_neg (not_lt.mpr hge)]

/-- C17: from every simulation state and every held keys, `restart` produces
the freshly constructed character (position (140, 430), velocity (0, 0),
rotation 0, tilt 0, springCompression 0, onGround false, airborneTimer 0),
status Playing, elapsed 0, cameraX 0 and all four key flags false; the result
does not depend on the state before. -/
theorem restart_fresh (s : SimState) (keys : Keys) :
    restart s keys =
      ({ character :=
          { position := { x := 140, y := 430 }
            velocity := { x := 0, y := 0 }
            rotation := 0
            tilt := 0
            springCompression := 0
            onGround := false
            airborneTimer := 0 }
         cameraX := 0
         status := Status.playing
         elapsed := 0 },
       { ArrowLeft := false, ArrowRight := false, ArrowUp := false, Space := false }) ∧
      ∀ (s2 : SimState) (keys2 : Keys), restart s keys = restart s2 keys2 :=
  ⟨rfl, fun _ _ => rfl⟩

/-- C20: for the 960-wide viewport, `LEVEL.width - 960` is 1440 and the
camera update of `drawScene` yields a `cameraX` in `[0, 1440]`, whatever the
old `cameraX` and the character x; when the old `cameraX` and the target
`x - 480` both lie in `[0, 1440]`, the clamp is inactive and the new offset
satisfies `new - target = 0.88 * (old - target)`, with `0.88 = 1 - 0.12`. -/
theorem drawScene_camera (s : SimState) :
    LEVEL.width - 960 = 1440 ∧ (1 : ℚ) - CAMERA_LERP = 88 / 100 ∧
      0 ≤ (drawScene 960 s).cameraX ∧ (drawScene 960 s).cameraX ≤ 1440 ∧
      (0 ≤ s.cameraX → s.cameraX ≤ 1440 →
        0 ≤ s.character.position.x - 480 → s.character.position.x - 480 ≤ 1440 →
        (drawScene 960 s).cameraX =
            s.cameraX + (s.character.position.x - s.cameraX - 960 / 2) * CAMERA_LERP ∧
          (drawScene 960 s).cameraX - (s.character.position.x - 480) =
            (88 / 100) * (s.cameraX - (s.character.position.x - 480))) := by
  have e : LEVEL.width - 960 = 1440 := by norm_num [LEVEL]
  refine ⟨e, by norm_num [CAMERA_LERP], ?_⟩
  unfold drawScene
  simp only [e, CAMERA_LERP]
  have hb := clamp_bounds
    (s.cameraX + (s.character.position.x - s.cameraX - 960 / 2) * (12 / 100))
    (show (0 : ℚ) ≤ 1440 by norm_num)
  refine ⟨hb.1, hb.2, ?_⟩
  intro h1 h2 h3 h4
  rw [clamp_of_mem (by linarith) (by linarith)]
  exact ⟨rfl, by ring⟩

/-! ## The circle-against-rectangle test -/

/-- The nearest-coordinate property of `clamp`, for a real coordinate `p` of
the interval. -/
theorem clamp_sq_le_real (c lo hi : ℚ) (p : ℝ) (h1 : (lo : ℝ) ≤ p) (h2 : p ≤ (hi : ℝ)) :
    ((c : ℝ) - ((clamp c lo hi : ℚ) : ℝ)) ^ 2 ≤ ((c : ℝ) - p) ^ 2 := by
  unfold clamp
  rw [Rat.cast_max, Rat.cast_min]
  rcases le_total (hi : ℝ) (c : ℝ) with h | h
  · rw [min_eq_left h, max_eq_right (h1.trans h2)]
    nlinarith
  · rw [min_eq_right h]
    rcases le_total (lo : ℝ) (c : ℝ) with h3 | h3
    · rw [max_eq_right h3]
      nlinarith [sq_nonneg ((c : ℝ) - p)]
    · rw [max_eq_left h3]
      nlinarith

theorem circleMeetsRect_of_rectCircleIntersect (rect : Rect) (cx cy r : ℚ)
    (hw : 0 ≤ rect.width) (hh : 0 ≤ rect.height)
    (h : rectCircleIntersect rect cx cy r = true) : circleMeetsRect rect cx cy r := by
  unfold rectCircleIntersect at h
  simp only [decide_eq_true_eq] at h
  have bx := clamp_bounds cx (show rect.x ≤ rect.x + rect.width by linarith)
  have by1 := clamp_bounds cy (show rect.y - rect.height ≤ rect.y by linarith)
  refine ⟨clamp cx rect.x (rect.x + rect.width), clamp cy (rect.y - rect.height) rect.y,
    ⟨bx.1, bx.2, by1.1, by1.2⟩, ?_⟩
  nlinarith

/-- C15: for a rectangle with `width >= 0` and `height >= 0`, occupying
`[x, x + width]` by `[y - height, y]`, a centre `(cx, cy)` and a radius
`r >= 0`, `rectCircleIntersect` returns true if and only if some point of the
rectangle (with rational coordinates, and equally with real coordinates) lies
at Euclidean distance strictly less than `r` from the centre; it returns false
exactly when the distance from the centre to the clamped point, the nearest
point of the rectangle, is at least `r`, that is when every point of the
rectangle is at distance at least `r`. -/
theorem rectCircleIntersect_exact (rect : Rect) (cx cy r : ℚ)
    (hw : 0 ≤ rect.width) (hh : 0 ≤ rect.height) (hr : 0 ≤ r) :
    (rectCircleIntersect rect cx cy r = true ↔
        ∃ px py : ℚ, (rect.x ≤ px ∧ px ≤ rect.x + rect.width ∧
          rect.y - rect.height ≤ py ∧ py ≤ rect.y) ∧ (px - cx) ^ 2 + (py - cy) ^ 2 < r ^ 2) ∧
      (rectCircleIntersect rect cx cy r = true ↔
        ∃ px py : ℝ, ((rect.x : ℝ) ≤ px ∧ px ≤ (rect.x : ℝ) + rect.width ∧
          (rect.y : ℝ) - rect.height ≤ py ∧ py ≤ (rect.y : ℝ)) ∧
          Real.sqrt ((px - cx) ^ 2 + (py - cy) ^ 2) < r) ∧
      (rectCircleIntersect rect cx cy r = false ↔
        (r : ℝ) ≤ Real.sqrt
          (((cx : ℝ) - (clamp cx rect.x (rect.x + rect.width) : ℚ)) ^ 2 +
            ((cy : ℝ) - (clamp cy (rect.y - rect.height) rect.y : ℚ)) ^ 2)) ∧
      (rectCircleIntersect rect cx cy r = false ↔
        ∀ px py : ℝ, ((rect.x : ℝ) ≤ px ∧ px ≤ (rect.x : ℝ) + rect.width ∧
          (rect.y : ℝ) - rect.height ≤ py ∧ py ≤ (rect.y : ℝ)) →
          (r : ℝ) ≤ Real.sqrt ((px - cx) ^ 2 + (py - cy) ^ 2)) := by
  have hr' : (0 : ℝ) ≤ (r : ℝ) := by exact_mod_cast hr
  have hcode : rectCircleIntersect rect cx cy r = true ↔
      ((cx : ℝ) - (clamp cx rect.x (rect.x + rect.width) : ℚ)) ^ 2 +
        ((cy : ℝ) - (clamp cy (rect.y - rect.height) rect.y : ℚ)) ^ 2 < (r : ℝ) ^ 2 := by
    unfold rectCircleIntersect
    simp only [decide_eq_true_eq]
    constructor
    · intro h
      have h2 : ((cx : ℝ) - (clamp cx rect.x (rect.x + rect.width) : ℚ)) *
            ((cx : ℝ) - (clamp cx rect.x (rect.x + rect.width) : ℚ)) +
          ((cy : ℝ) - (clamp cy (rect.y - rect.height) rect.y : ℚ)) *
            ((cy : ℝ) - (clamp cy (rect.y - rect.height) rect.y : ℚ)) < (r : ℝ) * r := by
        exact_mod_cast h
      nlinarith
    · intro h
      have h2 : ((cx : ℝ) - (clamp cx rect.x (rect.x + rect.width) : ℚ)) *
            ((cx : ℝ) - (clamp cx rect.x (rect.x + rect.width) : ℚ)) +
          ((cy : ℝ) - (clamp cy (rect.y - rect.height) rect.y : ℚ)) *
            ((cy : ℝ) - (clamp cy (rect.y - rect.height) rect.y : ℚ)) < (r : ℝ) * r := by
        nlinarith
      exact_mod_cast h2
  have hreal : rectCircleIntersect rect cx cy r = true ↔
      ∃ px py : ℝ, ((rect.x : ℝ) ≤ px ∧ px ≤ (rect.x : ℝ) + rect.width ∧
        (rect.y : ℝ) - rect.height ≤ py ∧ py ≤ (rect.y : ℝ)) ∧
        Real.sqrt ((px - cx) ^ 2 + (py - cy) ^ 2) < r := by
    constructor
    · intro h
      have hm := circleMeetsRect_of_rectCircleIntersect rect cx cy r hw hh h
      obtain ⟨px, py, ⟨a1, a2, a3, a4⟩, hd⟩ := hm
      refine ⟨(px : ℝ), (py : ℝ), ⟨by exact_mod_cast a1, by exact_mod_cast a2,
        by exact_mod_cast a3, by exact_mod_cast a4⟩, ?_⟩
      have hd' : ((px : ℝ) - cx) ^ 2 + ((py : ℝ) - cy) ^ 2 < (r : ℝ) ^ 2 := by
        exact_mod_cast hd
      rw [Real.sqrt_lt' (lt_of_le_of_ne hr' (by
        rintro he
        rw [← he] at hd'
        nlinarith [sq_nonneg ((px : ℝ) - cx), sq_nonneg ((py : ℝ) - cy)]))]
      exact hd'
    · rintro ⟨px, py, ⟨a1, a2, a3, a4⟩, hd⟩
      have hpos : (0 : ℝ) < r := lt_of_le_of_lt (Real.sqrt_nonneg _) hd
      rw [Real.sqrt_lt' hpos] at hd
      rw [hcode]
      have e1 := clamp_sq_le_real cx rect.x (rect.x + rect.width) px a1 (by push_cast; exact a2)
      have e2 := clamp_sq_le_real cy (rect.y - rect.height) rect.y py (by push_cast; exact a3) a4
      nlinarith
  refine ⟨?_, hreal, ?_, ?_⟩
  · exact ⟨circleMeetsRect_of_rectCircleIntersect rect cx cy r hw hh,
      rectCircleIntersect_of_meets rect cx cy r⟩
  swap
  · rw [← Bool.not_eq_true, hreal]
    push_neg
    rfl
  · rw [← Bool.not_eq_true, hcode, not_lt]
    constructor
    · intro h
      exact Real.le_sqrt_of_sq_le h
    · intro h
      have := Real.sq_sqrt (add_nonneg (sq_nonneg ((cx : ℝ) - (clamp cx rect.x (rect.x + rect.width) : ℚ)))
        (sq_nonneg ((cy : ℝ) - (clamp cy (rect.y - rect.height) rect.y : ℚ))))
      nlinarith [Real.sqrt_nonneg (((cx : ℝ) - (clamp cx rect.x (rect.x + rect.width) : ℚ)) ^ 2 +
            ((cy : ℝ) - (clamp cy (rect.y - rect.height) rect.y : ℚ)) ^ 2)]

/-! ## Grounded means standing on a platform -/

/-- On the shipped level the platforms are more than a body width apart: a
character whose body footprint overlaps a platform is resolved by that
platform alone. -/
theorem resolveCollisions_single (p : Platform) (hp : p ∈ LEVEL.platforms) (ch : Character)
    (h1 : ch.position.x + 28 > p.x) (h2 : ch.position.x - 28 < p.x + p.width) :
    resolveCollisions ch = collidePlatform (getFootPosition ch) ch p := by
  simp only [LEVEL, List.mem_cons, List.mem_singleton, List.not_mem_nil, or_false] at hp
  simp only [resolveCollisions, LEVEL, List.foldl_cons, List.foldl_nil]
  rcases hp with rfl | rfl | rfl | rfl | rfl
  all_goals
    have h1c := h1
    have h2c := h2
    norm_num at h1c h2c
    repeat first
      | rw [collidePlatform_far _ ch _
          (by simp only [getFootPosition]; rintro ⟨a1, a2⟩; norm_num at a1 a2; linarith)
          (by rintro ⟨a1, a2⟩; norm_num at a1 a2; linarith)]
      | rw [collidePlatform_far _ _ _
          (by simp only [getFootPosition]; rintro ⟨a1, a2⟩; norm_num at a1 a2; linarith)
          (by
            simp only [collidePlatform_position_x]
            rintro ⟨a1, a2⟩
            norm_num at a1 a2
            linarith)]

theorem foldl_collide_none (foot : Vec2) (ps : List Platform) (ch : Character)
    (hfx : foot.x = ch.position.x)
    (h : ∀ q ∈ ps, ¬ (ch.position.x + 28 > q.x ∧ ch.position.x - 28 < q.x + q.width)) :
    ps.foldl (collidePlatform foot) ch = ch := by
  induction ps with
  | nil => rfl
  | cons q qs ih =>
    have hq := h q (List.mem_cons_self _ _)
    have hfoot : ¬ (foot.x ≥ q.x ∧ foot.x ≤ q.x + q.width) := by
      rintro ⟨a1, a2⟩
      apply hq
      rw [hfx] at a1 a2
      constructor <;> linarith
    rw [List.foldl_cons, collidePlatform_far foot ch q hfoot hq]
    exact ih (fun r hr => h r (List.mem_cons_of_mem _ hr))

/-- One platform: if the grounded flag is raised by `collidePlatform`, the
foot test has fired. -/
theorem collidePlatform_onGround (foot : Vec2) (ch : Character) (p : Platform)
    (hfx : foot.x = ch.position.x) (hfy : foot.y = ch.position.y) (hb : 0 ≤ p.bounce)
    (hg : ch.onGround = false) (h : (collidePlatform foot ch p).onGround = true) :
    (p.x ≤ ch.position.x ∧ ch.position.x ≤ p.x + p.width) ∧
      (collidePlatform foot ch p).position.y = p.y ∧
      (collidePlatform foot ch p).velocity.y ≤ 0 := by
  by_cases hfire : (foot.x ≥ p.x ∧ foot.x ≤ p.x + p.width) ∧
      (foot.y - p.y ≥ 0 ∧ foot.y - p.y ≤ p.height + 60) ∧ ch.velocity.y ≥ 0
  · obtain ⟨⟨a1, a2⟩, ⟨a3, a4⟩, a5⟩ := hfire
    rw [collidePlatform_land foot ch p hfy a1 a2 a3 a4 a5]
    refine ⟨⟨by rw [← hfx]; exact a1, by rw [← hfx]; exact a2⟩, rfl, ?_⟩
    simp only
    split_ifs
    · exact le_rfl
    · nlinarith
  · exfalso
    have hno : (collidePlatform foot ch p).onGround = false := by
      unfold collidePlatform
      simp only
      split_ifs <;> first | exact hg | (exfalso; apply hfire; tauto)
    rw [hno] at h
    exact Bool.false_ne_true h

theorem platform_y_ge (p : Platform) (hp : p ∈ LEVEL.platforms) : 420 ≤ p.y := by
  simp only [LEVEL, List.mem_cons, List.mem_singleton, List.not_mem_nil, or_false] at hp
  rcases hp with rfl | rfl | rfl | rfl | rfl <;> norm_num

theorem platform_bounce_le (p : Platform) (hp : p ∈ LEVEL.platforms) : p.bounce ≤ 35 / 100 := by
  simp only [LEVEL, List.mem_cons, List.mem_singleton, List.not_mem_nil, or_false] at hp
  rcases hp with rfl | rfl | rfl | rfl | rfl <;> norm_num

/-- On the shipped level, a grounded flag raised by `resolveCollisions` means
that the foot rests on a platform top. -/
theorem resolveCollisions_onGround (ch : Character) (hg : ch.onGround = false)
    (h : (resolveCollisions ch).onGround = true) :
    ∃ p ∈ LEVEL.platforms, (p.x ≤ ch.position.x ∧ ch.position.x ≤ p.x + p.width) ∧
      (resolveCollisions ch).position.y = p.y ∧ (resolveCollisions ch).velocity.y ≤ 0 := by
  by_cases hex : ∃ p ∈ LEVEL.platforms,
      ch.position.x + 28 > p.x ∧ ch.position.x - 28 < p.x + p.width
  · obtain ⟨p, hp, h1, h2⟩ := hex
    rw [resolveCollisions_single p hp ch h1 h2] at h ⊢
    exact ⟨p, hp, collidePlatform_onGround _ ch p rfl rfl (platform_bounce_pos p hp).le hg h⟩
  · exfalso
    push_neg at hex
    have hid : resolveCollisions ch = ch :=
      foldl_collide_none _ _ ch rfl (fun q hq ⟨a1, a2⟩ => absurd a2 (not_lt.mpr (hex q hq a1)))
    rw [hid, hg] at h
    exact Bool.false_ne_true h

theorem settle_onGround (keys : Keys) (step : ℚ) (ch : Character)
    (h : (settle keys step ch).onGround = true) :
    ch.onGround = true ∧ (settle keys step ch).velocity.y = ch.velocity.y := by
  unfold settle at h ⊢
  cases hO : ch.onGround <;> cases hU : keys.ArrowUp <;> cases hS : keys.Space <;> simp_all

theorem resolveCeiling_of_low (ch : Character) (h : 185 ≤ ch.position.y) :
    resolveCeiling ch = ch := by
  unfold resolveCeiling
  have hn : ¬ ch.position.y - POGO_LENGTH * (9 / 10) - BODY_RADIUS - HEAD_RADIUS < LEVEL.ceiling := by
    norm_num [POGO_LENGTH, BODY_RADIUS, HEAD_RADIUS, LEVEL]
    linarith
  simp only [if_neg hn]

/-- C18: on the shipped level, if `onGround` is true after one call of
`updatePhysics` from a playing state, with any held keys and any step, then
`position.y` equals the top y of a platform whose span `[x, x + width]`
contains `position.x`, and `velocity.y <= 0`. -/
theorem updatePhysics_grounded_on_platform (keys : Keys) (step : ℚ) (s : SimState)
    (h : s.status = Status.playing)
    (hg : (updatePhysics keys step s).character.onGround = true) :
    ∃ p ∈ LEVEL.platforms,
      (updatePhysics keys step s).character.position.y = p.y ∧
        p.x ≤ (updatePhysics keys step s).character.position.x ∧
        (updatePhysics keys step s).character.position.x ≤ p.x + p.width ∧
        (updatePhysics keys step s).character.velocity.y ≤ 0 := by
  rw [updatePhysics_playing keys step s h] at hg ⊢
  simp only at hg ⊢
  obtain ⟨hg1, hvy⟩ := settle_onGround keys step _ hg
  rw [resolveCeiling_onGround] at hg1
  obtain ⟨p, hp, ⟨hx1, hx2⟩, hy, hv⟩ :=
    resolveCollisions_onGround (integrate keys step s.character) rfl hg1
  have hlow : resolveCeiling (resolveCollisions (integrate keys step s.character)) =
      resolveCollisions (integrate keys step s.character) :=
    resolveCeiling_of_low _ (by rw [hy]; linarith [platform_y_ge p hp])
  rw [hvy, hlow, settle_position, resolveCollisions_position_x]
  exact ⟨p, hp, hy, hx1, hx2, hv⟩

/-! ## Pole-tip contact and rest -/

/-- The pole-tip test of the platform overlapped by the body, for a character
moving upward with its pole top in the band. -/
theorem collidePlatform_pole (foot : Vec2) (ch : Character) (p : Platform)
    (hv : ch.velocity.y < 0)
    (hb1 : p.y - 40 ≤ ch.position.y - 55) (hb2 : ch.position.y - 55 ≤ p.y)
    (h1 : ch.position.x + 28 > p.x) (h2 : ch.position.x - 28 < p.x + p.width) :
    collidePlatform foot ch p =
      { ch with
        position := { x := ch.position.x, y := p.y + 55 }
        velocity := { x := ch.velocity.x, y := 0 } } := by
  have hnv : ¬ ch.velocity.y ≥ 0 := not_le.mpr hv
  have e55 : POGO_LENGTH * (1 / 2) = 55 := by norm_num [POGO_LENGTH]
  have hband : ch.position.y - 55 ≤ p.y ∧ ch.position.y - 55 ≥ p.y - 40 := ⟨hb2, hb1⟩
  have hover : ch.position.x + BODY_RADIUS > p.x ∧ ch.position.x - BODY_RADIUS < p.x + p.width ∧
      ch.velocity.y < 0 := ⟨h1, h2, hv⟩
  unfold collidePlatform
  simp only [hnv, if_false, ite_self, e55, if_pos hband, if_pos hover, max_eq_left hv.le]

/-- The pole-tip contact on a character whose grounded flag is clear. -/
theorem resolveCollisions_pole_tip_aux (p : Platform) (hp : p ∈ LEVEL.platforms) (ch : Character)
    (hg : ch.onGround = false) (hv : ch.velocity.y < 0)
    (hb1 : p.y - 40 ≤ ch.position.y - 55) (hb2 : ch.position.y - 55 ≤ p.y)
    (h1 : ch.position.x + 28 > p.x) (h2 : ch.position.x - 28 < p.x + p.width) :
    resolveCollisions ch =
        { ch with
          position := { x := ch.position.x, y := p.y + 55 }
          velocity := { x := ch.velocity.x, y := 0 } } ∧
      (resolveCollisions ch).position.y - 55 = p.y ∧
      (resolveCollisions ch).velocity.y = 0 ∧
      (resolveCollisions ch).onGround = false := by
  rw [resolveCollisions_single p hp ch h1 h2, collidePlatform_pole _ ch p hv hb1 hb2 h1 h2]
  exact ⟨rfl, by simp, rfl, hg⟩

/-- C16: the pole top is `position.y - POGO_LENGTH / 2 = position.y - 55`. For
every platform `p` of the shipped level and every character that
`resolveCollisions` receives, that is with the grounded flag cleared as line
133 leaves it before the only call of line 156, moving upward
(`velocity.y < 0`), with its pole top `position.y - 55` in `[p.y - 40, p.y]`
and its body footprint overlapping the platform (`position.x + 28 > p.x` and
`position.x - 28 < p.x + p.width`): after `resolveCollisions` the pole top
rests exactly at the surface (`position.y - 55 = p.y`), `velocity.y = 0` and
`onGround` is false, the other fields being unchanged. The second part states
the same for the character `integrate keys step c` that `updatePhysics` passes
to the resolver, whatever `c`, the keys and the step. -/
theorem resolveCollisions_pole_tip (p : Platform) (hp : p ∈ LEVEL.platforms) :
    POGO_LENGTH * (1 / 2) = 55 ∧
      (∀ ch : Character, ch.onGround = false → ch.velocity.y < 0 →
        p.y - 40 ≤ ch.position.y - 55 → ch.position.y - 55 ≤ p.y →
        ch.position.x + 28 > p.x → ch.position.x - 28 < p.x + p.width →
        resolveCollisions ch =
            { ch with
              position := { x := ch.position.x, y := p.y + 55 }
              velocity := { x := ch.velocity.x, y := 0 } } ∧
          (resolveCollisions ch).position.y - 55 = p.y ∧
          (resolveCollisions ch).velocity.y = 0 ∧
          (resolveCollisions ch).onGround = false) ∧
      ∀ (keys : Keys) (step : ℚ) (c : Character),
        (integrate keys step c).velocity.y < 0 →
        p.y - 40 ≤ (integrate keys step c).position.y - 55 →
        (integrate keys step c).position.y - 55 ≤ p.y →
        (integrate keys step c).position.x + 28 > p.x →
        (integrate keys step c).position.x - 28 < p.x + p.width →
        (resolveCollisions (integrate keys step c)).position.y - 55 = p.y ∧
          (resolveCollisions (integrate keys step c)).velocity.y = 0 ∧
          (resolveCollisions (integrate keys step c)).onGround = false :=
  ⟨by norm_num [POGO_LENGTH],
   fun ch hg hv hb1 hb2 h1 h2 => resolveCollisions_pole_tip_aux p hp ch hg hv hb1 hb2 h1 h2,
   fun keys step c hv hb1 hb2 h1 h2 =>
    (resolveCollisions_pole_tip_aux p hp (integrate keys step c) rfl hv hb1 hb2 h1 h2).2⟩

/-- On the shipped level, the collision resolver on a character that has just
fallen for one step of 1/60 from rest on a platform top. -/
theorem resolveCollisions_rest (keys : Keys) (ch : Character) (p : Platform)
    (hp : p ∈ LEVEL.platforms) (hy : ch.position.y = p.y) (hv : ch.velocity.y = 0)
    (hx1 : p.x ≤ (integrate keys STEP_TIME ch).position.x)
    (hx2 : (integrate keys STEP_TIME ch).position.x ≤ p.x + p.width) :
    (resolveCollisions (integrate keys STEP_TIME ch)).position.y = p.y ∧
      (resolveCollisions (integrate keys STEP_TIME ch)).velocity.y = 0 ∧
      (resolveCollisions (integrate keys STEP_TIME ch)).onGround = true := by
  have hh := platform_height_ge p hp
  have hb0 := platform_bounce_pos p hp
  have hb1 := platform_bounce_le p hp
  have ey : (integrate keys STEP_TIME ch).position.y = p.y + 11 / 18 := by
    show ch.position.y + (ch.velocity.y + GRAVITY * STEP_TIME) * STEP_TIME = p.y + 11 / 18
    rw [hy, hv]
    norm_num [GRAVITY, STEP_TIME]
  have ev : (integrate keys STEP_TIME ch).velocity.y = 110 / 3 := by
    show ch.velocity.y + GRAVITY * STEP_TIME = 110 / 3
    rw [hv]
    norm_num [GRAVITY, STEP_TIME]
  have hsnap : |(integrate keys STEP_TIME ch).velocity.y * -p.bounce| < 60 := by
    rw [ev, mul_neg, abs_neg, abs_of_nonneg (by nlinarith)]
    nlinarith
  rw [resolveCollisions_land p hp _ hx1 hx2 (by rw [ey]; linarith) (by rw [ey]; linarith)
    (by rw [ev]; norm_num), if_pos hsnap]
  exact ⟨rfl, rfl, rfl⟩

theorem settle_no_jump (keys : Keys) (step : ℚ) (ch : Character)
    (hu : keys.ArrowUp = false) (hs : keys.Space = false) :
    (settle keys step ch).velocity.y = ch.velocity.y ∧
      (settle keys step ch).onGround = ch.onGround := by
  unfold settle
  simp [hu, hs]

/-- C19: for every platform `p` of the shipped level and every playing state
with `position.y = p.y` and `velocity.y = 0`, with neither ArrowUp nor Space
held and with `position.x` after the horizontal integration of the tick within
`[p.x, p.x + p.width]`, one call of `updatePhysics` with step 1/60 ends with
`position.y = p.y`, `velocity.y = 0` and `onGround = true`. -/
theorem updatePhysics_rest_fixed (keys : Keys) (s : SimState) (h : s.status = Status.playing)
    (p : Platform) (hp : p ∈ LEVEL.platforms)
    (hy : s.character.position.y = p.y) (hv : s.character.velocity.y = 0)
    (hu : keys.ArrowUp = false) (hs : keys.Space = false)
    (hx1 : p.x ≤ (integrate keys STEP_TIME s.character).position.x)
    (hx2 : (integrate keys STEP_TIME s.character).position.x ≤ p.x + p.width) :
    (updatePhysics keys STEP_TIME s).character.position.y = p.y ∧
      (updatePhysics keys STEP_TIME s).character.velocity.y = 0 ∧
      (updatePhysics keys STEP_TIME s).character.onGround = true := by
  obtain ⟨r1, r2, r3⟩ := resolveCollisions_rest keys s.character p hp hy hv hx1 hx2
  have hlow : resolveCeiling (resolveCollisions (integrate keys STEP_TIME s.character)) =
      resolveCollisions (integrate keys STEP_TIME s.character) :=
    resolveCeiling_of_low _ (by rw [r1]; linarith [platform_y_ge p hp])
  obtain ⟨j1, j2⟩ := settle_no_jump keys STEP_TIME
    (resolveCollisions (integrate keys STEP_TIME s.character)) hu hs
  rw [updatePhysics_playing keys STEP_TIME s h]
  simp only
  rw [hlow, settle_position, j1, j2]
  exact ⟨r1, r2, r3⟩

/-! ## Scenario A: falling from rest onto the first platform -/

theorem vertRun_add (m n : ℕ) (q : ℚ × ℚ × Bool) :
    vertRun (m + n) q = (vertRun m q).bind (vertRun n) := by
  induction n with
  | zero => simp [vertRun]
  | succ n ih =>
    show (vertRun (m + n) q).bind vertStep = (vertRun m q).bind (vertRun (n + 1))
    rw [ih]
    cases vertRun m q with
    | none => rfl
    | some r => rfl

theorem vertRun_10 (g : Bool) : vertRun 10 (200, 0, g) = some (4205 / 18, 1100 / 3, false) := by
  cases g <;> norm_num [vertRun, vertStep, GRAVITY, STEP_TIME, abs_lt]

theorem vertRun_20 : vertRun 10 (4205 / 18, 1100 / 3, false) = some (985 / 3, 2200 / 3, false) := by
  norm_num [vertRun, vertStep, GRAVITY, STEP_TIME, abs_lt]

theorem vertRun_30 : vertRun 10 (985 / 3, 2200 / 3, false) = some (470, -308, true) := by
  norm_num [vertRun, vertStep, GRAVITY, STEP_TIME, abs_lt]

theorem vertRun_40 : vertRun 10 (470, -308, true) = some (8141 / 18, 176 / 3, false) := by
  norm_num [vertRun, vertStep, GRAVITY, STEP_TIME, abs_lt]

theorem vertRun_50 : vertRun 10 (8141 / 18, 176 / 3, false) = some (470, 0, true) := by
  norm_num [vertRun, vertStep, GRAVITY, STEP_TIME, abs_lt]

theorem vertRun_fifty (g : Bool) : vertRun 50 (200, 0, g) = some (470, 0, true) := by
  have e : (50 : ℕ) = 10 + 10 + 10 + 10 + 10 := rfl
  rw [e, vertRun_add, vertRun_add, vertRun_add, vertRun_add, vertRun_10]
  simp only [Option.some_bind, vertRun_20, vertRun_30, vertRun_40, vertRun_50]

theorem vertStep_rest (g : Bool) : vertStep (470, 0, g) = some (470, 0, true) := by
  norm_num [vertStep, GRAVITY, STEP_TIME, abs_lt]

/-- A circle that meets a rectangle has its centre less than a radius to the
left of the rectangle. -/
theorem circleMeetsRect_x_gt (rect : Rect) (cx cy r : ℚ) (hr : 0 ≤ r)
    (h : circleMeetsRect rect cx cy r) : rect.x - r < cx := by
  obtain ⟨px, py, ⟨hx1, _, _, _⟩, hd⟩ := h
  by_contra hcon
  push_neg at hcon
  nlinarith [sq_nonneg (py - cy), sq_nonneg (px - cx - r)]

/-- Left of `x = 592` no hazard of the shipped level is in reach. -/
theorem hazardContact_far_left (ch : Character) (hx : ch.position.x ≤ 592) (hazard : Rect)
    (hm : hazard ∈ LEVEL.hazards) : hazardContact ch hazard = false := by
  have hz : 620 ≤ hazard.x ∧ 0 ≤ hazard.width ∧ 0 ≤ hazard.height := by
    simp only [LEVEL, List.mem_cons, List.mem_singleton, List.not_mem_nil, or_false] at hm
    rcases hm with rfl | rfl <;> norm_num
  have hcirc : ∀ cy r : ℚ, 0 ≤ r → r ≤ 28 →
      rectCircleIntersect hazard ch.position.x cy r = false := by
    intro cy r hr0 hr
    rw [← Bool.not_eq_true]
    intro hc
    have := circleMeetsRect_x_gt _ _ _ _ hr0
      (circleMeetsRect_of_rectCircleIntersect _ _ _ _ hz.2.1 hz.2.2 hc)
    linarith [hz.1]
  have hpt : ∀ py : ℚ, rectPointIntersect hazard ch.position.x py = false := by
    intro py
    have hlt : ¬ ch.position.x ≥ hazard.x := by
      rw [not_le]
      linarith [hz.1]
    simp [rectPointIntersect, hlt]
  unfold hazardContact
  simp only [getFootPosition]
  rw [hcirc _ BODY_RADIUS (by norm_num [BODY_RADIUS]) (by norm_num [BODY_RADIUS]),
    hcirc _ HEAD_RADIUS (by norm_num [HEAD_RADIUS]) (by norm_num [HEAD_RADIUS]), hpt]
  rfl

theorem resolveHazards_far_left (ch : Character) (hx : ch.position.x ≤ 592)
    (hy : ch.position.y ≤ 760) : resolveHazards Status.playing ch = Status.playing := by
  have hany : LEVEL.hazards.any (hazardContact ch) = false := by
    rw [List.any_eq_false]
    intro hz hm
    rw [hazardContact_far_left ch hx hz hm]
    exact Bool.false_ne_true
  unfold resolveHazards
  simp only [hany, Bool.false_eq_true, if_false]
  rw [if_neg (not_lt.mpr hy)]

/-- A platform whose top is below the foot position leaves the character
unchanged. -/
theorem collidePlatform_above (foot : Vec2) (ch : Character) (p : Platform)
    (hfy : foot.y = ch.position.y) (h : ch.position.y < p.y) :
    collidePlatform foot ch p = ch := by
  have hpen : ¬ (foot.y - p.y ≥ 0 ∧ foot.y - p.y ≤ p.height + 60) := by
    rintro ⟨a, _⟩
    rw [hfy] at a
    linarith
  have hband : ¬ (ch.position.y - POGO_LENGTH * (1 / 2) ≤ p.y ∧
      ch.position.y - POGO_LENGTH * (1 / 2) ≥ p.y - 40) := by
    rintro ⟨_, a⟩
    norm_num [POGO_LENGTH] at a
    linarith
  unfold collidePlatform
  simp only [if_neg hpen, ite_self, if_neg hband]

theorem integrate_noKeys (ch : Character) (y vy : ℚ)
    (hpos : ch.position = { x := 140, y := y }) (hvel : ch.velocity = { x := 0, y := vy }) :
    (integrate noKeys STEP_TIME ch).position =
        { x := 140, y := y + (vy + GRAVITY * STEP_TIME) * STEP_TIME } ∧
      (integrate noKeys STEP_TIME ch).velocity = { x := 0, y := vy + GRAVITY * STEP_TIME } ∧
      (integrate noKeys STEP_TIME ch).onGround = false := by
  unfold integrate
  simp only [hpos, hvel, noKeys]
  norm_num [clamp, MAX_VELOCITY_X, LEVEL]

theorem settle_noKeys (step : ℚ) (ch : Character) (hvx : ch.velocity.x = 0) :
    (settle noKeys step ch).position = ch.position ∧
      (settle noKeys step ch).velocity = { x := 0, y := ch.velocity.y } ∧
      (settle noKeys step ch).onGround = ch.onGround := by
  unfold settle
  simp [noKeys, hvx]

/-- One tick above the first platform, with no key held, follows `vertStep`. -/
theorem updatePhysics_vertStep (s : SimState) (q r : ℚ × ℚ × Bool)
    (h : s.status = Status.playing)
    (hpos : s.character.position = { x := 140, y := q.1 })
    (hvel : s.character.velocity = { x := 0, y := q.2.1 })
    (hstep : vertStep q = some r) :
    AboveFirst r (updatePhysics noKeys STEP_TIME s) := by
  obtain ⟨ip, iv, ig⟩ := integrate_noKeys s.character q.1 q.2.1 hpos hvel
  have ix : (integrate noKeys STEP_TIME s.character).position.x = 140 := by rw [ip]
  have iy : (integrate noKeys STEP_TIME s.character).position.y =
      q.1 + (q.2.1 + GRAVITY * STEP_TIME) * STEP_TIME := by rw [ip]
  have ivx : (integrate noKeys STEP_TIME s.character).velocity.x = 0 := by rw [iv]
  have ivy : (integrate noKeys STEP_TIME s.character).velocity.y =
      q.2.1 + GRAVITY * STEP_TIME := by rw [iv]
  have hp0 : ({ x := 0, y := 470, width := 620, height := 250, bounce := 28 / 100 } : Platform)
      ∈ LEVEL.platforms := by simp [LEVEL]
  have hfin : ¬ (140 : ℚ) ≥ LEVEL.finish.x + LEVEL.finish.width / 2 := by norm_num [LEVEL]
  rw [updatePhysics_playing noKeys STEP_TIME s h]
  unfold vertStep at hstep
  simp only at hstep
  by_cases hair : 185 ≤ q.1 + (q.2.1 + GRAVITY * STEP_TIME) * STEP_TIME ∧
      q.1 + (q.2.1 + GRAVITY * STEP_TIME) * STEP_TIME < 470
  · -- airborne tick
    rw [if_pos hair] at hstep
    have hr : r = (q.1 + (q.2.1 + GRAVITY * STEP_TIME) * STEP_TIME,
        q.2.1 + GRAVITY * STEP_TIME, false) := (Option.some.inj hstep).symm
    have hcol : resolveCollisions (integrate noKeys STEP_TIME s.character) =
        integrate noKeys STEP_TIME s.character := by
      rw [resolveCollisions_single _ hp0 _ (by rw [ix]; norm_num) (by rw [ix]; norm_num)]
      exact collidePlatform_above _ _ _ rfl (by rw [iy]; exact hair.2)
    have hceil := resolveCeiling_of_low (integrate noKeys STEP_TIME s.character)
      (by rw [iy]; exact hair.1)
    obtain ⟨sp, sv, sg⟩ := settle_noKeys STEP_TIME (integrate noKeys STEP_TIME s.character) ivx
    rw [hcol, hceil]
    refine ⟨?_, ?_, ?_, ?_⟩
    · simp only
      rw [sp, ix, if_neg hfin]
      exact resolveHazards_far_left _ (by rw [ix]; norm_num) (by rw [iy]; linarith [hair.2])
    · simp only
      rw [sp, ip, hr]
    · simp only
      rw [sv, ivy, hr]
    · simp only
      rw [sg, ig, hr]
  · -- landing tick
    rw [if_neg hair] at hstep
    by_cases hland : 470 ≤ q.1 + (q.2.1 + GRAVITY * STEP_TIME) * STEP_TIME ∧
        q.1 + (q.2.1 + GRAVITY * STEP_TIME) * STEP_TIME ≤ 780 ∧ 0 ≤ q.2.1 + GRAVITY * STEP_TIME
    swap
    · rw [if_neg hland] at hstep
      exact absurd hstep (by simp)
    rw [if_pos hland] at hstep
    have hr : r = (470, (if |(q.2.1 + GRAVITY * STEP_TIME) * -(28 / 100)| < 60 then 0
        else (q.2.1 + GRAVITY * STEP_TIME) * -(28 / 100)), true) := (Option.some.inj hstep).symm
    have hcol := resolveCollisions_land _ hp0 (integrate noKeys STEP_TIME s.character)
      (by rw [ix]; norm_num) (by rw [ix]; norm_num)
      (by rw [iy]; linarith [hland.1]) (by rw [iy]; norm_num; linarith [hland.2.1])
      (by rw [ivy]; exact hland.2.2)
    rw [hcol, ix, ivx, ivy]
    have hceil := resolveCeiling_of_low
      ({ integrate noKeys STEP_TIME s.character with
          position := { x := 140, y := 470 }
          velocity := { x := 0, y := if |(q.2.1 + GRAVITY * STEP_TIME) * -(28 / 100)| < 60 then 0
            else (q.2.1 + GRAVITY * STEP_TIME) * -(28 / 100) }
          onGround := true } : Character) (by norm_num)
    obtain ⟨sp, sv, sg⟩ := settle_noKeys STEP_TIME
      ({ integrate noKeys STEP_TIME s.character with
          position := { x := 140, y := 470 }
          velocity := { x := 0, y := if |(q.2.1 + GRAVITY * STEP_TIME) * -(28 / 100)| < 60 then 0
            else (q.2.1 + GRAVITY * STEP_TIME) * -(28 / 100) }
          onGround := true } : Character) rfl
    rw [hceil]
    refine ⟨?_, ?_, ?_, ?_⟩
    · simp only
      rw [sp, if_neg hfin]
      exact resolveHazards_far_left _ (by norm_num) (by norm_num)
    · simp only
      rw [sp, hr]
    · simp only
      rw [sv, hr]
    · simp only
      rw [sg, hr]

theorem updatePhysics_vertRun (n : ℕ) (s : SimState) (q r : ℚ × ℚ × Bool)
    (hq : AboveFirst q s) (hrun : vertRun n q = some r) :
    AboveFirst r ((updatePhysics noKeys STEP_TIME)^[n] s) := by
  induction n generalizing r with
  | zero =>
    have e : q = r := Option.some.inj hrun
    rw [← e]
    exact hq
  | succ n ih =>
    have hb : (vertRun n q).bind vertStep = some r := hrun
    cases hm : vertRun n q with
    | none =>
      rw [hm] at hb
      exact absurd hb (by simp)
    | some m =>
      rw [hm] at hb
      have hm1 := ih m hm
      rw [Function.iterate_succ_apply']
      exact updatePhysics_vertStep _ m r hm1.1 hm1.2.1 hm1.2.2.1 hb

/-- C13: Scenario A. From a playing state whose character is at rest at
`(140, 200)`, with no key held, after 50 calls of `updatePhysics` with step
1/60 and after every larger number of calls the character has
`onGround = true`, `velocity.y = 0` and `position.y = 470`, and the status is
still Playing; so `n = 50` is a tick count as claimed. -/
theorem scenarioA_settles (s : SimState) (h : s.status = Status.playing)
    (hpos : s.character.position = { x := 140, y := 200 })
    (hvel : s.character.velocity = { x := 0, y := 0 }) :
    ∀ m : ℕ, 50 ≤ m →
      ((updatePhysics noKeys STEP_TIME)^[m] s).character.onGround = true ∧
        ((updatePhysics noKeys STEP_TIME)^[m] s).character.velocity.y = 0 ∧
        ((updatePhysics noKeys STEP_TIME)^[m] s).character.position.y = 470 ∧
        ((updatePhysics noKeys STEP_TIME)^[m] s).status = Status.playing := by
  have h50 : AboveFirst (470, 0, true) ((updatePhysics noKeys STEP_TIME)^[50] s) :=
    updatePhysics_vertRun 50 s (200, 0, s.character.onGround) _ ⟨h, hpos, hvel, rfl⟩
      (vertRun_fifty _)
  have hall : ∀ k : ℕ, AboveFirst (470, 0, true) ((updatePhysics noKeys STEP_TIME)^[50 + k] s) := by
    intro k
    induction k with
    | zero => exact h50
    | succ k ih =>
      rw [← Nat.add_assoc, Function.iterate_succ_apply']
      exact updatePhysics_vertStep _ _ _ ih.1 ih.2.1 ih.2.2.1 (vertStep_rest _)
  intro m hm
  obtain ⟨k, rfl⟩ := Nat.exists_eq_add_of_le hm
  obtain ⟨a1, a2, a3, a4⟩ := hall k
  refine ⟨a4, ?_, ?_, a1⟩
  · rw [a3]
  · rw [a2]

/-! ## Instances at the sample inputs -/

theorem updatePhysics_position_x_bounded_witness :
    startState.status = Status.playing ∧
      0 ≤ (updatePhysics rightKeys STEP_TIME startState).character.position.x ∧
      (updatePhysics rightKeys STEP_TIME startState).character.position.x ≤ 2360 :=
  ⟨rfl, (updatePhysics_position_x_bounded rightKeys STEP_TIME startState rfl).2⟩

theorem updatePhysics_springCompression_bounded_witness :
    startState.status = Status.playing ∧
      0 ≤ (updatePhysics jumpRightKeys STEP_TIME startState).character.springCompression ∧
      (updatePhysics jumpRightKeys STEP_TIME startState).character.springCompression ≤ 1 :=
  ⟨rfl, updatePhysics_springCompression_bounded jumpRightKeys STEP_TIME startState rfl⟩

theorem scenarioA_settles_witness :
    dropState.status = Status.playing ∧
      ((updatePhysics noKeys STEP_TIME)^[50] dropState).character.onGround = true ∧
      ((updatePhysics noKeys STEP_TIME)^[50] dropState).character.velocity.y = 0 ∧
      ((updatePhysics noKeys STEP_TIME)^[50] dropState).character.position.y = 470 ∧
      ((updatePhysics noKeys STEP_TIME)^[50] dropState).status = Status.playing :=
  ⟨rfl, scenarioA_settles dropState rfl rfl rfl 50 le_rfl⟩

theorem resolveCeiling_spec_witness :
    bonkCharacter.position.y - 145 < 40 ∧ bonkCharacter.velocity.y < 0 ∧
      (resolveCeiling bonkCharacter).position.y - 145 = 40 ∧
      (resolveCeiling bonkCharacter).velocity.y = -(2 / 10) * bonkCharacter.velocity.y :=
  ⟨by norm_num [bonkCharacter], by norm_num [bonkCharacter],
   ((resolveCeiling_spec bonkCharacter).2.2.2.1 (by norm_num [bonkCharacter])).2.1,
   ((resolveCeiling_spec bonkCharacter).2.2.2.1 (by norm_num [bonkCharacter])).2.2.1
     (by norm_num [bonkCharacter])⟩

theorem rectCircleIntersect_exact_witness :
    rectCircleIntersect { x := 620, y := 470, width := 80, height := 90 } 660 374 28 = true ↔
      ∃ px py : ℚ, ((620 : ℚ) ≤ px ∧ px ≤ 620 + 80 ∧ (470 : ℚ) - 90 ≤ py ∧ py ≤ 470) ∧
        (px - 660) ^ 2 + (py - 374) ^ 2 < (28 : ℚ) ^ 2 :=
  (rectCircleIntersect_exact { x := 620, y := 470, width := 80, height := 90 } 660 374 28
    (by norm_num) (by norm_num) (by norm_num)).1

theorem resolveCollisions_pole_tip_witness :
    (integrate noKeys STEP_TIME poleTipStart).velocity.y < 0 ∧
      (resolveCollisions (integrate noKeys STEP_TIME poleTipStart)).position.y - 55 = 470 ∧
      (resolveCollisions (integrate noKeys STEP_TIME poleTipStart)).velocity.y = 0 ∧
      (resolveCollisions (integrate noKeys STEP_TIME poleTipStart)).onGround = false :=
  ⟨by norm_num [integrate, poleTipStart, noKeys, GRAVITY, STEP_TIME],
   (resolveCollisions_pole_tip
      { x := 0, y := 470, width := 620, height := 250, bounce := 28 / 100 }
      (by simp [LEVEL])).2.2 noKeys STEP_TIME poleTipStart
      (by norm_num [integrate, poleTipStart, noKeys, GRAVITY, STEP_TIME])
      (by norm_num [integrate, poleTipStart, noKeys, GRAVITY, STEP_TIME])
      (by norm_num [integrate, poleTipStart, noKeys, GRAVITY, STEP_TIME])
      (by norm_num [integrate, poleTipStart, noKeys, clamp, MAX_VELOCITY_X, LEVEL, STEP_TIME])
      (by norm_num [integrate, poleTipStart, noKeys, clamp, MAX_VELOCITY_X, LEVEL, STEP_TIME])⟩

theorem updatePhysics_grounded_on_platform_witness :
    restOnFirst.status = Status.playing ∧
      (updatePhysics noKeys STEP_TIME restOnFirst).character.onGround = true ∧
      ∃ p ∈ LEVEL.platforms,
        (updatePhysics noKeys STEP_TIME restOnFirst).character.position.y = p.y ∧
          p.x ≤ (updatePhysics noKeys STEP_TIME restOnFirst).character.position.x ∧
          (updatePhysics noKeys STEP_TIME restOnFirst).character.position.x ≤ p.x + p.width ∧
          (updatePhysics noKeys STEP_TIME restOnFirst).character.velocity.y ≤ 0 :=
  have hg : (updatePhysics noKeys STEP_TIME restOnFirst).character.onGround = true := by
    norm_num [updatePhysics, restOnFirst, noKeys, STEP_TIME, integrate, resolveCollisions,
      LEVEL, collidePlatform, getFootPosition, resolveCeiling, settle, clamp, MAX_VELOCITY_X,
      GRAVITY, POGO_LENGTH, BODY_RADIUS, HEAD_RADIUS, AIR_DRAG, resolveHazards, hazardContact,
      rectCircleIntersect, rectPointIntersect, triggerFail]
  ⟨rfl, hg, updatePhysics_grounded_on_platform noKeys STEP_TIME restOnFirst rfl hg⟩

theorem updatePhysics_rest_fixed_witness :
    restOnFirst.status = Status.playing ∧
      (updatePhysics noKeys STEP_TIME restOnFirst).character.position.y = 470 ∧
      (updatePhysics noKeys STEP_TIME restOnFirst).character.velocity.y = 0 ∧
      (updatePhysics noKeys STEP_TIME restOnFirst).character.onGround = true :=
  ⟨rfl,
   updatePhysics_rest_fixed noKeys restOnFirst rfl
     { x := 0, y := 470, width := 620, height := 250, bounce := 28 / 100 }
     (by simp [LEVEL]) (by norm_num [restOnFirst]) (by norm_num [restOnFirst]) rfl rfl
     (by norm_num [restOnFirst, noKeys, integrate, clamp, STEP_TIME, MAX_VELOCITY_X, LEVEL])
     (by norm_num [restOnFirst, noKeys, integrate, clamp, STEP_TIME, MAX_VELOCITY_X, LEVEL])⟩

theorem drawScene_camera_witness :
    (0 ≤ midLevelState.cameraX ∧ midLevelState.cameraX ≤ 1440 ∧
        0 ≤ midLevelState.character.position.x - 480 ∧
        midLevelState.character.position.x - 480 ≤ 1440) ∧
      (drawScene 960 midLevelState).cameraX - (midLevelState.character.position.x - 480) =
        (88 / 100) * (midLevelState.cameraX - (midLevelState.character.position.x - 480)) :=
  ⟨by norm_num [midLevelState],
   ((drawScene_camera midLevelState).2.2.2.2 (by norm_num [midLevelState])
      (by norm_num [midLevelState]) (by norm_num [midLevelState])
      (by norm_num [midLevelState])).2⟩

end Pogo
